import Mathlib

/-!
Verification development for the AliceVision cameraInit pipeline
(src/software/pipeline/main_cameraInit.cpp).

The C++ program is shallowly embedded: doubles are modelled as rationals
(the decoded image dimensions are integers coming from the image header, so
they are modelled as Int), the EXIF reader, image decoder, sensor database
and filesystem are external collaborators modelled as explicit input data,
and the stateful main loop is modelled by explicit state passing with an
Except monad for the fatal early exits.
-/

/-- Camera intrinsic model kinds (the EINTRINSIC enum of the camera library). -/
inductive EINTRINSIC where
  | PINHOLE_CAMERA_START
  | PINHOLE_CAMERA
  | PINHOLE_CAMERA_RADIAL1
  | PINHOLE_CAMERA_RADIAL3
  | PINHOLE_CAMERA_BROWN
  | PINHOLE_CAMERA_FISHEYE
  | PINHOLE_CAMERA_FISHEYE1
deriving DecidableEq, Repr

/-- Modelled from the spec: the camera library's EINTRINSIC_enumToString
(external to the translation unit).  Maps each model kind to its
command-line name; the constructor of ImageMetadata uses it to synthesize
a model name for images without EXIF brand/model. -/
def EINTRINSIC_enumToString : EINTRINSIC → String
  | .PINHOLE_CAMERA_START => "none"
  | .PINHOLE_CAMERA => "pinhole"
  | .PINHOLE_CAMERA_RADIAL1 => "radial1"
  | .PINHOLE_CAMERA_RADIAL3 => "radial3"
  | .PINHOLE_CAMERA_BROWN => "brown"
  | .PINHOLE_CAMERA_FISHEYE => "fisheye4"
  | .PINHOLE_CAMERA_FISHEYE1 => "fisheye1"

/-- Modelled from the spec: the camera library's EINTRINSIC_stringToEnum
(external to the translation unit), the inverse of the enum-to-string map;
the spec says the model kind of a "Custom" camera is parsed back out of the
synthesized model-name string. -/
def EINTRINSIC_stringToEnum (s : String) : EINTRINSIC :=
  if s == "pinhole" then .PINHOLE_CAMERA
  else if s == "radial1" then .PINHOLE_CAMERA_RADIAL1
  else if s == "radial3" then .PINHOLE_CAMERA_RADIAL3
  else if s == "brown" then .PINHOLE_CAMERA_BROWN
  else if s == "fisheye4" then .PINHOLE_CAMERA_FISHEYE
  else if s == "fisheye1" then .PINHOLE_CAMERA_FISHEYE1
  else .PINHOLE_CAMERA_START

/-- The slice of the EXIF string-to-string map that the program reads or
writes: the image_width / image_height tags (read in the ImageMetadata
constructor) and the sensor_width tag (written by setSensorWidth). -/
structure ExifData where
  imageWidth : Option Int
  imageHeight : Option Int
  sensorWidth : Option ℚ
deriving DecidableEq, Repr

/-- The empty EXIF map. -/
def ExifData.empty : ExifData := ⟨none, none, none⟩

/-- Result of the external EXIF reader (EasyExifIO) on one image. -/
structure ExifInfo where
  brand : String
  model : String
  serialNumber : String
  lensSerialNumber : String
  focal : ℚ
  hasExifInfo : Bool
  imageWidthTag : Option Int
  imageHeightTag : Option Int
deriving DecidableEq, Repr

/-- The raw tag map the reader exposes (getExifData). -/
def ExifInfo.exifData (e : ExifInfo) : ExifData :=
  ⟨e.imageWidthTag, e.imageHeightTag, none⟩

/-- One entry of the external sensor width database. -/
structure Datasheet where
  brand : String
  model : String
  sensorSize : ℚ
deriving DecidableEq, Repr

/-- Modelled from the spec: the external LookupSensorWidth collaborator
(getInfo of the sensor database module): maps (brand, model) to a sensor
width or a miss. -/
def getInfo (database : List Datasheet) (brand model : String) : Option ℚ :=
  (database.find? (fun d => d.brand == brand && d.model == model)).map
    (fun d => d.sensorSize)

/-- The float literal 1.2f used as fallback millimeter focal length for
images without EXIF brand/model, as a rational. -/
def mmFocalFallback : ℚ := mkRat 6 5

/-- State of the ImageMetadata accumulator class. -/
structure ImageMetadata where
  imageAbsPath : String
  width : Int
  height : Int
  cameraBrand : String
  cameraModel : String
  serialNumber : String
  metadataImageWidth : Int
  metadataImageHeight : Int
  ppx : ℚ
  ppy : ℚ
  ccdw : ℚ
  pxFocalLength : ℚ
  mmFocalLength : ℚ
  haveValidMetadata : Bool
  isResized : Bool
  intrinsicType : EINTRINSIC
  exifData : ExifData
deriving DecidableEq, Repr

/-- The ImageMetadata constructor (main_cameraInit.cpp lines 238-313).
Reads the EXIF collaborator's output, synthesizes brand "Custom" when
brand or model is missing, recovers the metadata-stated dimensions from
the image_width / image_height tags, treats a transposed metadata size as
a rotation, and flags the image as resized when the metadata size differs
from the decoded size.  Note the faithful translation of line 284/292:
the EXIF dimension replaces the decoded one only when it is non-positive. -/
def ImageMetadata.make (imageAbsPath : String) (width height : Int)
    (reader : ExifInfo) : ImageMetadata :=
  let ppx : ℚ := (width : ℚ) / 2
  let ppy : ℚ := (height : ℚ) / 2
  let cameraBrand := reader.brand
  let cameraModel := reader.model
  let serialNumber := reader.serialNumber ++ reader.lensSerialNumber
  let mmFocalLength := reader.focal
  let haveValidMetadata :=
    reader.hasExifInfo && !cameraBrand.isEmpty && !cameraModel.isEmpty
  let useCustom := cameraBrand.isEmpty || cameraModel.isEmpty
  let cameraBrand := if useCustom then "Custom" else cameraBrand
  let cameraModel :=
    if useCustom then EINTRINSIC_enumToString .PINHOLE_CAMERA_RADIAL3
    else cameraModel
  let mmFocalLength := if useCustom then mmFocalFallback else mmFocalLength
  let exifData := if haveValidMetadata then reader.exifData else ExifData.empty
  let metadataImageWidth := width
  let metadataImageHeight := height
  let metadataImageWidth :=
    match exifData.imageWidth with
    | some exifWidth => if exifWidth ≤ 0 then exifWidth else metadataImageWidth
    | none => metadataImageWidth
  let metadataImageHeight :=
    match exifData.imageHeight with
    | some exifHeight => if exifHeight ≤ 0 then exifHeight else metadataImageHeight
    | none => metadataImageHeight
  let rotated := metadataImageWidth == height && metadataImageHeight == width
  let metadataImageWidth := if rotated then width else metadataImageWidth
  let metadataImageHeight := if rotated then height else metadataImageHeight
  let isResized := metadataImageWidth != width || metadataImageHeight != height
  { imageAbsPath, width, height, cameraBrand, cameraModel, serialNumber,
    metadataImageWidth, metadataImageHeight, ppx, ppy,
    ccdw := -1, pxFocalLength := -1, mmFocalLength,
    haveValidMetadata, isResized,
    intrinsicType := .PINHOLE_CAMERA_START, exifData }

/-- setKMatrix with an already-validated K matrix string (the program
validates the user K matrix before the loop and exits on a malformed one,
so only the valid path is reachable here): the parsed string
f;0;ppx;0;f;ppy;0;0;1 fixes the pixel focal length and principal point. -/
def ImageMetadata.setKMatrix (m : ImageMetadata) (k : ℚ × ℚ × ℚ) :
    ImageMetadata :=
  { m with pxFocalLength := k.1, ppx := k.2.1, ppy := k.2.2 }

/-- setFocalLengthPixel (lines 384-387). -/
def ImageMetadata.setFocalLengthPixel (m : ImageMetadata) (px : ℚ) :
    ImageMetadata :=
  { m with pxFocalLength := px }

/-- setSensorWidth (lines 393-397): records the width and emplaces a
sensor_width tag in the EXIF map (emplace keeps an existing entry). -/
def ImageMetadata.setSensorWidth (m : ImageMetadata) (sensorWidth : ℚ) :
    ImageMetadata :=
  { m with ccdw := sensorWidth,
           exifData := { m.exifData with
             sensorWidth := match m.exifData.sensorWidth with
               | some v => some v
               | none => some sensorWidth } }

/-- setIntrinsicType (lines 403-406). -/
def ImageMetadata.setIntrinsicType (m : ImageMetadata) (t : EINTRINSIC) :
    ImageMetadata :=
  { m with intrinsicType := t }

/-- computeSensorWidth (lines 412-428): look up (brand, model) in the
sensor database; on a hit record the width via setSensorWidth and report
true, on a miss leave the state unchanged and report false. -/
def ImageMetadata.computeSensorWidth (m : ImageMetadata)
    (database : List Datasheet) : ImageMetadata × Bool :=
  match getInfo database m.cameraBrand m.cameraModel with
  | none => (m, false)
  | some s => (m.setSensorWidth s, true)

/-- The intrinsic object produced for one camera (the relevant fields of
the camera library's IntrinsicBase). -/
structure Intrinsic where
  intrinsicType : EINTRINSIC
  width : Int
  height : Int
  pxFocalLength : ℚ
  ppx : ℚ
  ppy : ℚ
  initialFocalLengthPix : ℚ
  distortionParams : List ℚ
  serialNumber : Option String
deriving DecidableEq, Repr

/-- setSerialNumber on an intrinsic. -/
def Intrinsic.withSerial (i : Intrinsic) (s : String) : Intrinsic :=
  { i with serialNumber := some s }

/-- The pixel focal length computation step of computeIntrinsic
(lines 436-449): when the pixel focal length is still the unknown
sentinel -1, it is derived from the millimeter focal length and the
sensor width, provided the millimeter focal length is positive and the
sensor width is not the unknown sentinel -1. -/
def focalFromMm (m : ImageMetadata) : ℚ :=
  if m.pxFocalLength = -1 then
    if m.mmFocalLength ≤ 0 then m.pxFocalLength
    else if m.ccdw ≠ -1 then
      (max m.metadataImageWidth m.metadataImageHeight : ℚ) *
        m.mmFocalLength / m.ccdw
    else m.pxFocalLength
  else m.pxFocalLength

/-- The model-kind selection step of computeIntrinsic (lines 452-473):
when no user override fixed the type, default to radial-3; a "Custom"
brand parses the kind back out of the synthesized model name; a resized
image forces the plain pinhole model; a short millimeter focal length
(below 15) selects the fisheye model. -/
def selectIntrinsicType (m : ImageMetadata) : EINTRINSIC :=
  if m.intrinsicType = .PINHOLE_CAMERA_START then
    if m.cameraBrand == "Custom" then EINTRINSIC_stringToEnum m.cameraModel
    else if m.isResized then .PINHOLE_CAMERA
    else if 0 < m.mmFocalLength ∧ m.mmFocalLength < 15 then
      .PINHOLE_CAMERA_FISHEYE
    else .PINHOLE_CAMERA_RADIAL3
  else m.intrinsicType

/-- The GoPro factory distortion seeds of computeIntrinsic
(lines 480-495). -/
def distortionSeed (t : EINTRINSIC) (brand : String) (px ppx ppy : ℚ) :
    List ℚ :=
  match t with
  | .PINHOLE_CAMERA_FISHEYE =>
      if brand == "GoPro" then
        [px, ppx, ppy, mkRat 524 10000, mkRat 94 10000,
         mkRat (-37) 10000, mkRat (-4) 10000]
      else []
  | .PINHOLE_CAMERA_FISHEYE1 =>
      if brand == "GoPro" then [px, ppx, ppy, mkRat 104 100]
      else []
  | _ => []

/-- computeIntrinsic (lines 434-518): derive the pixel focal length when
possible, select the model kind, create the intrinsic (with the GoPro
distortion seeds where applicable) and set its serial number only when
the EXIF metadata was valid.  The mutated ImageMetadata is returned
alongside the produced intrinsic. -/
def ImageMetadata.computeIntrinsic (m : ImageMetadata) :
    ImageMetadata × Intrinsic :=
  let px := focalFromMm m
  let t := selectIntrinsicType m
  let intrinsic : Intrinsic :=
    { intrinsicType := t, width := m.width, height := m.height,
      pxFocalLength := px, ppx := m.ppx, ppy := m.ppy,
      initialFocalLengthPix := px,
      distortionParams := distortionSeed t m.cameraBrand px m.ppx m.ppy,
      serialNumber := if m.haveValidMetadata then some m.serialNumber
                      else none }
  ({ m with pxFocalLength := px, intrinsicType := t }, intrinsic)

/-- One input image as seen through the external collaborators: the image
format probe, the header reader (decoded dimensions), the EXIF reader and
the external stable-UID function (computeUID). -/
structure ImageFile where
  path : String
  folder : String
  formatKnown : Bool
  headerReadable : Bool
  width : Int
  height : Int
  exif : ExifInfo
  uid : Nat
deriving DecidableEq, Repr

/-- The user override options of the command line.  The K matrix is
carried in parsed form (focal, ppx, ppy); the program validates the
string before the loop and exits on a malformed one. -/
structure UserParams where
  kMatrix : Option (ℚ × ℚ × ℚ)
  cameraModel : Option EINTRINSIC
  focalLengthPixel : ℚ
  sensorWidth : ℚ
  groupCameraModel : Nat
deriving DecidableEq, Repr

/-- One view of the output dataset.  intrinsicId none models the
UndefinedIndexT sentinel. -/
structure View where
  imagePath : String
  viewId : Nat
  intrinsicId : Option Nat
  poseId : Nat
  width : Int
  height : Int
  rigAndSubPoseId : Option (Nat × Nat)
  metadata : ExifData
deriving DecidableEq, Repr

/-- The sensorInfo record of main (lines 806-817): one unknown-sensor
report; its equality operator compares brand and model only. -/
structure SensorInfo where
  filePath : String
  brand : String
  model : String
deriving DecidableEq, Repr

/-- The sensorInfo equality operator (lines 812-816): brand and model
only, the file path is ignored. -/
def SensorInfo.sameSensor (a b : SensorInfo) : Bool :=
  a.brand == b.brand && a.model == b.model

/-- The mutable state of main during the assignment loop. -/
structure GlobalState where
  rigId : Nat
  poseId : Nat
  intrinsicId : Nat
  nbCurrImages : Nat
  views : List (Nat × View)
  intrinsics : List (Nat × Intrinsic)
  rigs : List (Nat × Nat)
  unknownSensorImages : List SensorInfo
  noMetadataImages : List String
deriving DecidableEq, Repr

/-- The state at the start of the assignment loop (lines 801-820). -/
def GlobalState.init : GlobalState := ⟨0, 0, 0, 0, [], [], [], [], []⟩

/-- The per-camera mutable variables of the loop (lines 832-836). -/
structure CamVars where
  isCameraFirstImage : Bool
  cameraWidth : Int
  cameraHeight : Int
  cameraExifData : ExifData
deriving DecidableEq, Repr

/-- The loop-invariant parameters for processing one camera's frames. -/
structure CamParams where
  user : UserParams
  database : List Datasheet
  groupId : Nat
  cameraId : Nat
  isRig : Bool
  isGroup : Bool
  cameraIntrinsicId : Nat
deriving DecidableEq, Repr

/-- views.count(viewId) on the keyed view registry. -/
def hasKey (vs : List (Nat × View)) (k : Nat) : Bool :=
  vs.any (fun kv => kv.1 == k)

/-- Insert-or-assign on the rig registry (rigs[rigId] = Rig(nbCameras)). -/
def mapInsert : List (Nat × Nat) → Nat → Nat → List (Nat × Nat)
  | [], k, v => [(k, v)]
  | (k₀, v₀) :: rest, k, v =>
      if k₀ == k then (k, v) :: rest else (k₀, v₀) :: mapInsert rest k v

/-- The user override block of the loop (lines 906-914): camera model
override, K matrix, then explicit pixel focal length, in program order. -/
def applyUserOverrides (user : UserParams) (m : ImageMetadata) :
    ImageMetadata :=
  let m := match user.cameraModel with
    | some t => m.setIntrinsicType t
    | none => m
  let m := match user.kMatrix with
    | some k => m.setKMatrix k
    | none => m
  if user.focalLengthPixel ≠ -1 then m.setFocalLengthPixel user.focalLengthPixel
  else m

/-- The sensor width block of the loop (lines 916-929): an explicit user
sensor width bypasses the database; otherwise the database is consulted
and, on a miss with valid EXIF metadata and a still-unknown pixel focal
length, the image is recorded in the unknown-sensor report list. -/
def sensorWidthStep (user : UserParams) (database : List Datasheet)
    (m : ImageMetadata) : ImageMetadata × Bool :=
  if user.sensorWidth ≠ -1 then (m.setSensorWidth user.sensorWidth, false)
  else
    match m.computeSensorWidth database with
    | (m₁, true) => (m₁, false)
    | (m₁, false) =>
        (m₁, m₁.haveValidMetadata && decide (m₁.pxFocalLength = -1))

/-- The metadata of an image after the constructor and the user override
block (lines 904-914). -/
def metadataAfterOverrides (user : UserParams) (img : ImageFile) :
    ImageMetadata :=
  applyUserOverrides user
    (ImageMetadata.make img.path img.width img.height img.exif)

/-- Whether a frame, used as the first readable frame of a camera, gets
recorded in the fatal unknown-sensor report list (lines 916-929). -/
def unknownSensorPush (user : UserParams) (database : List Datasheet)
    (img : ImageFile) : Bool :=
  (sensorWidthStep user database (metadataAfterOverrides user img)).2

/-- Processing of a camera's first successfully-read frame
(lines 898-965): build the metadata, apply user overrides, resolve the
sensor width, record diagnostic entries, compute the intrinsic, relabel
its serial number when the metadata is invalid, and register it under the
camera's intrinsic id. -/
def firstImageProcess (P : CamParams) (img : ImageFile) (g : GlobalState) :
    CamVars × GlobalState :=
  let ms := sensorWidthStep P.user P.database
    (metadataAfterOverrides P.user img)
  let m := ms.1
  let pushUnknown := ms.2
  let g := if pushUnknown then
      { g with unknownSensorImages := g.unknownSensorImages ++
          [⟨img.path, m.cameraBrand, m.cameraModel⟩] }
    else g
  let g := if !m.haveValidMetadata then
      { g with noMetadataImages := g.noMetadataImages ++ [img.path] }
    else g
  let mi := m.computeIntrinsic
  let m := mi.1
  let intrinsic₀ := mi.2
  let intrinsic :=
    if !m.haveValidMetadata then
      if P.user.groupCameraModel == 2 then intrinsic₀.withSerial img.folder
      else if P.isRig then
        intrinsic₀.withSerial
          ("no_metadata_rig_" ++ toString P.groupId ++ "_" ++
            toString P.cameraId)
      else if P.isGroup then
        intrinsic₀.withSerial
          ("no_metadata_intrincic_group_" ++ toString P.groupId)
      else intrinsic₀
    else intrinsic₀
  let g := { g with intrinsics := g.intrinsics ++
      [(P.cameraIntrinsicId, intrinsic)] }
  (⟨false, img.width, img.height, m.exifData⟩, g)

/-- View creation for one frame (lines 976-1009): compute the stable view
id, skip the frame when the id is already registered (duplicate input),
otherwise create the view with pose id = shared counter + frame index for
rig cameras and a fresh pose id (counter incremented) otherwise. -/
def addViewStep (P : CamParams) (frameId : Nat) (cv : CamVars)
    (g : GlobalState) (img : ImageFile) : CamVars × GlobalState :=
  let viewId := img.uid
  if hasKey g.views viewId then (cv, g)
  else
    let cameraPoseId := if P.isRig then g.poseId + frameId else g.poseId
    let v : View :=
      { imagePath := img.path, viewId,
        intrinsicId := some P.cameraIntrinsicId,
        poseId := cameraPoseId, width := img.width, height := img.height,
        rigAndSubPoseId := if P.isRig then some (g.rigId, P.cameraId)
                           else none,
        metadata := cv.cameraExifData }
    (cv, { g with views := g.views ++ [(viewId, v)],
                  poseId := if P.isRig then g.poseId else g.poseId + 1,
                  nbCurrImages := g.nbCurrImages + 1 })

/-- Processing of one frame (lines 849-1009): skip unreadable frames and
frames with non-positive dimensions; on the camera's first readable frame
run the metadata/intrinsic pipeline; on later frames abort the run when
both decoded dimensions differ from the first frame's (the program's
dimension-consistency check, line 968, uses a conjunction); then run the
duplicate check and view creation. -/
def processFrame (P : CamParams) (frameId : Nat) (cv : CamVars)
    (g : GlobalState) (img : ImageFile) :
    Except Unit (CamVars × GlobalState) :=
  if !img.formatKnown then .ok (cv, g)
  else if !img.headerReadable then .ok (cv, g)
  else if img.width ≤ 0 ∨ img.height ≤ 0 then .ok (cv, g)
  else if cv.isCameraFirstImage then
    let r := firstImageProcess P img g
    .ok (addViewStep P frameId r.1 r.2 img)
  else if img.width ≠ cv.cameraWidth ∧ img.height ≠ cv.cameraHeight then
    .error ()
  else .ok (addViewStep P frameId cv g img)

/-- The frame loop of one camera (lines 849-1010). -/
def processFrames (P : CamParams) :
    List ImageFile → Nat → CamVars → GlobalState → Except Unit GlobalState
  | [], _, _, g => .ok g
  | img :: rest, frameId, cv, g =>
    match processFrame P frameId cv g img with
    | .error e => .error e
    | .ok r => processFrames P rest (frameId + 1) r.1 r.2

/-- Processing of one camera of a group (lines 830-1010): allocate the
camera's intrinsic id up front, register the rig arity when inside a rig,
then run the frame loop with fresh per-camera variables. -/
def processCamera (user : UserParams) (database : List Datasheet)
    (groupId cameraId : Nat) (isRig : Bool) (nbCameras : Nat)
    (frames : List ImageFile) (g : GlobalState) :
    Except Unit GlobalState :=
  let cameraIntrinsicId := g.intrinsicId
  let g := { g with intrinsicId := g.intrinsicId + 1 }
  let isGroup := frames.length > 1
  let g := if isRig then { g with rigs := mapInsert g.rigs g.rigId nbCameras }
           else g
  processFrames
    ⟨user, database, groupId, cameraId, isRig, isGroup, cameraIntrinsicId⟩
    frames 0 ⟨true, 0, 0, ExifData.empty⟩ g

/-- The camera loop of one group (lines 830-1011). -/
def processCameras (user : UserParams) (database : List Datasheet)
    (groupId : Nat) (isRig : Bool) (nbCameras : Nat) :
    List (List ImageFile) → Nat → GlobalState → Except Unit GlobalState
  | [], _, g => .ok g
  | cam :: rest, cameraId, g =>
    match processCamera user database groupId cameraId isRig nbCameras cam g
    with
    | .error e => .error e
    | .ok g₁ =>
        processCameras user database groupId isRig nbCameras rest
          (cameraId + 1) g₁

/-- Processing of one group (lines 824-1018): run the camera loop, then,
for a rig, advance the rig id and advance the shared pose counter by the
first camera's frame count — once for the whole group. -/
def processGroup (user : UserParams) (database : List Datasheet)
    (groupId : Nat) (group : List (List ImageFile)) (g : GlobalState) :
    Except Unit GlobalState :=
  let nbCameras := group.length
  let isRig := nbCameras > 1
  match processCameras user database groupId isRig nbCameras group 0 g with
  | .error e => .error e
  | .ok g₁ =>
    if isRig then
      .ok { g₁ with rigId := g₁.rigId + 1,
                    poseId := g₁.poseId + (group.headD []).length }
    else .ok g₁

/-- The group loop of main (lines 824-1018). -/
def runGroups (user : UserParams) (database : List Datasheet) :
    List (List (List ImageFile)) → Nat → GlobalState →
    Except Unit GlobalState
  | [], _, g => .ok g
  | gr :: rest, groupId, g =>
    match processGroup user database groupId gr g with
    | .error e => .error e
    | .ok g₁ => runGroups user database rest (groupId + 1) g₁

/-- The tail step of std::unique (line 1032): drop each element equal (by
the sensorInfo operator) to the last kept element. -/
def uniqueTail (last : SensorInfo) : List SensorInfo → List SensorInfo
  | [] => []
  | b :: rest =>
      if SensorInfo.sameSensor last b then uniqueTail last rest
      else b :: uniqueTail b rest

/-- std::unique on the unknown-sensor list (line 1032): removes only
consecutive duplicates, keeping the first element of each run. -/
def uniqueConsecutive : List SensorInfo → List SensorInfo
  | [] => []
  | a :: rest => a :: uniqueTail a rest

/-- The rig frame-count pre-check of main (lines 743-775): every camera
of a rig group must contribute as many frames as the group's first
camera. -/
def rigCountCheck (groups : List (List (List ImageFile))) : Bool :=
  groups.all fun gr =>
    if gr.length > 1 then
      gr.all (fun cam => cam.length == (gr.headD []).length)
    else true

/-- Outcome of a run, separating the distinct fatal exits of main. -/
inductive RunResult where
  | configError
  | emptyInput
  | rigCountMismatch
  | rigDimensionMismatch
  | unknownSensorFailure
  | saveFailure
  | allViewsWithoutIntrinsic
  | success
deriving DecidableEq, Repr

/-- The count of views whose intrinsic id is the undefined sentinel
(lines 1059-1065). -/
def viewsWithoutIntrinsic (views : List (Nat × View)) : Nat :=
  (views.filter (fun kv => kv.2.intrinsicId.isNone)).length

/-- The shape of the final report (lines 1074-1082). -/
inductive FinalReport where
  | allWithout
  | someWithout (n : Nat)
  | allGood
deriving DecidableEq, Repr

/-- The final intrinsic diagnostic (lines 1074-1082): fail when the count
of views without intrinsics equals the view count, warn with the count
when it is positive, succeed silently otherwise. -/
def finalReport (views : List (Nat × View)) : FinalReport :=
  let n := viewsWithoutIntrinsic views
  if n == views.length then .allWithout
  else if 0 < n then .someWithout n
  else .allGood

/-- Exit decision from the final diagnostic: only the all-views-lack
case is fatal (line 1077), the warning case succeeds. -/
def finishViews (views : List (Nat × View)) : RunResult :=
  match finalReport views with
  | .allWithout => .allViewsWithoutIntrinsic
  | _ => .success

/-- The post-loop stage of main (lines 1020-1084): the unknown-sensor
list, deduplicated by std::unique, is fatal when non-empty; then the
external shared-intrinsics merge runs when the grouping policy is
non-zero, the dataset is saved (external), and the final intrinsic
diagnostic decides the exit.  mergeIntrinsics and saveOk model the
external GroupSharedIntrinsics and Save collaborators. -/
def postLoop (user : UserParams)
    (mergeIntrinsics : List (Nat × View) → List (Nat × View))
    (saveOk : Bool) (st : GlobalState) : RunResult :=
  if uniqueConsecutive st.unknownSensorImages ≠ [] then
    .unknownSensorFailure
  else
    let views := if user.groupCameraModel ≠ 0 then mergeIntrinsics st.views
                 else st.views
    if !saveOk then .saveFailure
    else finishViews views

/-- The side effect of validating the user K matrix (line 679): the
validation call writes the parsed focal entry into the user focal length
variable. -/
def userAfterKMatrix (user : UserParams) : UserParams :=
  match user.kMatrix with
  | some k => { user with focalLengthPixel := k.1 }
  | none => user

/-- main from the option checks onward (lines 669-684, 728-775,
824-1084): reject combining a K matrix with an explicit focal length;
validating the K matrix writes its focal entry into the user focal length
variable (line 679); reject an empty input; run the rig frame-count
pre-check, the assignment loop and the post-loop stage. -/
def mainRun (user : UserParams) (database : List Datasheet)
    (mergeIntrinsics : List (Nat × View) → List (Nat × View))
    (saveOk : Bool) (groups : List (List (List ImageFile))) : RunResult :=
  if user.kMatrix.isSome ∧ user.focalLengthPixel ≠ -1 then .configError
  else
    let user := userAfterKMatrix user
    if groups.isEmpty then .emptyInput
    else if !rigCountCheck groups then .rigCountMismatch
    else match runGroups user database groups 0 GlobalState.init with
      | .error _ => .rigDimensionMismatch
      | .ok st => postLoop user mergeIntrinsics saveOk st

/-- Byte-wise lexicographic strict order on character lists, modelling
the std::string operator< used by std::sort on filenames. -/
def strListLt : List Char → List Char → Bool
  | [], [] => false
  | [], _ :: _ => true
  | _ :: _, [] => false
  | a :: as, b :: bs =>
    if a.toNat < b.toNat then true
    else if b.toNat < a.toNat then false
    else strListLt as bs

/-- The non-strict order derived from strListLt. -/
def strLe (a b : String) : Bool := !(strListLt b.data a.data)

/-- Directory-mode resolution (existence check line 645, listing and
grouping lines 712-725): fail when the directory does not exist or lists
no files; otherwise sort the file names and emit one singleton group per
file.  Note: no extension filtering happens on this path. -/
def resolveDirectory (dirExists : Bool) (dirFiles : List String) :
    Except Unit (List (List (List String))) :=
  if !dirExists then .error ()
  else if dirFiles.isEmpty then .error ()
  else .ok (((dirFiles.insertionSort (fun a b => strLe a b = true))).map
    (fun p => [[p]]))

/-- A filesystem node as probed by stlplus is_file / is_folder: a file
with its (already extracted) extension, a folder with its children, or a
path that is neither. -/
inductive FSNode where
  | file (path : String) (extPart : String)
  | folder (path : String) (children : List FSNode)
  | missing (path : String)
deriving Repr

/-- Result of listFiles: the success flag, the accumulated resource
paths, and the offending paths reported. -/
structure ListFilesResult where
  ok : Bool
  resources : List String
  errors : List String
deriving DecidableEq, Repr

mutual
/-- listFiles (lines 82-122): a file is accepted (silently filtered
otherwise) iff its lowercased extension is in the allow-list; an empty
folder is an error; a folder recurses over its children, stopping at the
first failing child; any other path is an error. -/
def listFiles (exts : List String) : FSNode → ListFilesResult
  | .file p e =>
      if exts.contains e.toLower then ⟨true, [p], []⟩ else ⟨true, [], []⟩
  | .folder p children =>
      if children.isEmpty then ⟨false, [], [p]⟩
      else listFilesChildren exts children
  | .missing p => ⟨false, [], [p]⟩

/-- The child loop of listFiles (lines 109-114): recurse on each child,
accumulating resources, and return early on the first failure. -/
def listFilesChildren (exts : List String) : List FSNode → ListFilesResult
  | [] => ⟨true, [], []⟩
  | c :: rest =>
      let r := listFiles exts c
      if r.ok then
        let q := listFilesChildren exts rest
        ⟨q.ok, r.resources ++ q.resources, r.errors ++ q.errors⟩
      else ⟨false, r.resources, r.errors⟩
end

/-- A value inside a rig camera's frame array of the manifest: only
strings are processed, other json values are silently ignored
(lines 207-214). -/
inductive RigVal where
  | str (node : FSNode)
  | other
deriving Repr

/-- An entry of a manifest group: a string (an intrinsic-shared image
path), an array (one rig camera's frame list), or another json value
(silently ignored) (lines 197-217). -/
inductive CamEntry where
  | str (node : FSNode)
  | arr (vals : List RigVal)
  | other
deriving Repr

/-- A top-level entry of the manifest's resources array: a string (a
single image path), an array (a rig or intrinsic group), or another json
value (silently ignored) (lines 182-224). -/
inductive ManifestEntry where
  | str (node : FSNode)
  | arr (cams : List CamEntry)
  | other
deriving Repr

/-- Accumulator of one manifest group (lines 195-221). -/
structure CamAcc where
  ok : Bool
  perCamera : List (List String)
  intrinsicPaths : List String
  errors : List String
deriving DecidableEq, Repr

/-- The inner loop over one rig camera's frame array (lines 206-214):
resolve each string, never stopping early, and record failures in the
shared flag. -/
def processRigVals (exts : List String) : List RigVal → ListFilesResult
  | [] => ⟨true, [], []⟩
  | .str node :: rest =>
      let r := listFiles exts node
      let q := processRigVals exts rest
      ⟨r.ok && q.ok, r.resources ++ q.resources, r.errors ++ q.errors⟩
  | .other :: rest => processRigVals exts rest

/-- The loop over one group's entries (lines 197-217): strings append to
the shared intrinsic path list, arrays append one rig camera's resolved
frame list, failures are recorded without stopping. -/
def processCamEntries (exts : List String) : List CamEntry → CamAcc
  | [] => ⟨true, [], [], []⟩
  | .str node :: rest =>
      let r := listFiles exts node
      let q := processCamEntries exts rest
      ⟨r.ok && q.ok, q.perCamera, r.resources ++ q.intrinsicPaths,
        r.errors ++ q.errors⟩
  | .arr vals :: rest =>
      let r := processRigVals exts vals
      let q := processCamEntries exts rest
      ⟨r.ok && q.ok, r.resources :: q.perCamera, q.intrinsicPaths,
        r.errors ++ q.errors⟩
  | .other :: rest => processCamEntries exts rest

/-- Result of manifest resolution: the success flag, the resolved
group/camera/frame tree, and the offending paths reported. -/
structure ResolveResult where
  ok : Bool
  resources : List (List (List String))
  errors : List String
deriving DecidableEq, Repr

/-- Processing of one top-level manifest entry (lines 184-223): a string
resolves to singleton groups (one per listed file, even when the listing
failed part-way); an array resolves its entries and appends the shared
intrinsic path list as a last camera when non-empty; other json values
are ignored. -/
def processEntry (exts : List String) : ManifestEntry → ResolveResult
  | .str node =>
      let r := listFiles exts node
      ⟨r.ok, r.resources.map (fun p => [[p]]), r.errors⟩
  | .arr cams =>
      let a := processCamEntries exts cams
      let perCam := if a.intrinsicPaths.isEmpty then a.perCamera
                    else a.perCamera ++ [a.intrinsicPaths]
      ⟨a.ok, [perCam], a.errors⟩
  | .other => ⟨true, [], []⟩

/-- retrieveResources over a parsed manifest (lines 179-225): process
every top-level entry, remembering failures in the canListFiles flag but
never stopping early, and return the flag at the end. -/
def retrieveResources (exts : List String) :
    List ManifestEntry → ResolveResult
  | [] => ⟨true, [], []⟩
  | e :: rest =>
      let r := processEntry exts e
      let q := retrieveResources exts rest
      ⟨r.ok && q.ok, r.resources ++ q.resources, r.errors ++ q.errors⟩

/-! Concrete inputs used by the claim counterexamples and witnesses. -/

/-- Default user parameters: no overrides, default grouping policy. -/
def userDefault : UserParams :=
  { kMatrix := none, cameraModel := none, focalLengthPixel := -1,
    sensorWidth := -1, groupCameraModel := 1 }

/-- EXIF reader output of an image with complete metadata whose stated
dimensions (400 x 200) are a genuine resize of the decoded 200 x 100
image (not a transposition). -/
def exifC1 : ExifInfo :=
  { brand := "CamCo", model := "M1", serialNumber := "", lensSerialNumber := "",
    focal := 50, hasExifInfo := true,
    imageWidthTag := some 400, imageHeightTag := some 200 }

/-- The metadata state of that 200 x 100 image. -/
def metaC1 : ImageMetadata := ImageMetadata.make ("img1.jpg") 200 100 exifC1

/-- EXIF reader output of an image with no EXIF data at all. -/
def noExif : ExifInfo :=
  { brand := "", model := "", serialNumber := "", lensSerialNumber := "",
    focal := -1, hasExifInfo := false,
    imageWidthTag := none, imageHeightTag := none }

/-- First frame of the first rig camera: 100 x 100. -/
def imgA : ImageFile :=
  { path := "a0.jpg", folder := "d", formatKnown := true,
    headerReadable := true, width := 100, height := 100, exif := noExif,
    uid := 11 }

/-- Second frame of the first rig camera: width differs from the first
frame (200 vs 100) but the height matches. -/
def imgB : ImageFile := { imgA with path := "a1.jpg", width := 200, uid := 12 }

/-- First frame of the second rig camera. -/
def imgC : ImageFile := { imgA with path := "b0.jpg", uid := 13 }

/-- Second frame of the second rig camera. -/
def imgD : ImageFile := { imgA with path := "b1.jpg", uid := 14 }

/-- A frame whose width and height both differ from 100 x 100. -/
def imgBoth : ImageFile :=
  { imgA with path := "c0.jpg", width := 200, height := 50, uid := 15 }

/-- A rig group of two cameras with two frames each, whose second frame
of camera 0 differs from the first in width only. -/
def rigC2 : List (List ImageFile) := [[imgA, imgB], [imgC, imgD]]

/-- Camera parameters of a rig camera, for the frame-level witnesses. -/
def pC2 : CamParams :=
  { user := userDefault, database := [], groupId := 0, cameraId := 0,
    isRig := true, isGroup := true, cameraIntrinsicId := 0 }

/-- Per-camera variables after a first accepted 100 x 100 frame. -/
def cvC2 : CamVars :=
  ⟨false, 100, 100, ExifData.empty⟩

/-- An unknown-sensor report list in which the pair (A, a) occurs twice,
separated by a different pair. -/
def sensorListC4 : List SensorInfo :=
  [⟨"p1", "A", "a"⟩, ⟨"p2", "B", "b"⟩, ⟨"p3", "A", "a"⟩]

/-- A loop state carrying one unknown-sensor report. -/
def gUnknown : GlobalState :=
  { GlobalState.init with unknownSensorImages := [⟨"p1", "A", "a"⟩] }

/-- A two-camera one-frame-each rig group. -/
def rigC5 : List (List ImageFile) := [[imgA], [imgC]]

/-- EXIF reader output with complete metadata and a 10 mm focal length. -/
def exifC7 : ExifInfo :=
  { brand := "CamCo", model := "M7", serialNumber := "", lensSerialNumber := "",
    focal := 10, hasExifInfo := true,
    imageWidthTag := none, imageHeightTag := none }

/-- Metadata of a 100 x 50 image after a user sensor width of -2 was
applied: the sensor width is not the -1 sentinel yet not positive. -/
def metaC7 : ImageMetadata :=
  (ImageMetadata.make ("img7.jpg") 100 50 exifC7).setSensorWidth (-2)

/-- Metadata of the same image with a positive user sensor width. -/
def metaC7b : ImageMetadata :=
  (ImageMetadata.make ("img7.jpg") 100 50 exifC7).setSensorWidth 5

/-- A view with a resolved intrinsic id. -/
def viewW : View :=
  { imagePath := "a0.jpg", viewId := 11, intrinsicId := some 0, poseId := 0,
    width := 100, height := 100, rigAndSubPoseId := none,
    metadata := ExifData.empty }

/-- A view whose intrinsic id is the undefined sentinel. -/
def viewNoIntr : View := { viewW with viewId := 30, intrinsicId := none }

/-- A loop state already containing the view with uid 11. -/
def gWithView : GlobalState :=
  { GlobalState.init with views := [(11, viewW)] }

/-- A manifest with two unresolvable entries (a missing path and an empty
directory) around a resolvable one. -/
def manifestC9 : List ManifestEntry :=
  [.str (.missing ("gone.jpg")), .str (.file ("ok.jpg") ("jpg")),
   .str (.folder ("emptydir") [])]

/-- User parameters with a K matrix whose focal entry is the -1 unknown
sentinel. -/
def userC10 : UserParams :=
  { kMatrix := some (-1, 500, 375), cameraModel := none,
    focalLengthPixel := -1, sensorWidth := -1, groupCameraModel := 1 }

/-- EXIF reader output with complete metadata for a camera model that is
missing from the sensor database. -/
def exifC10 : ExifInfo :=
  { brand := "MakeX", model := "ModelY", serialNumber := "s",
    lensSerialNumber := "", focal := 9, hasExifInfo := true,
    imageWidthTag := none, imageHeightTag := none }

/-- A readable 100 x 80 image carrying that EXIF data. -/
def imgC10 : ImageFile :=
  { path := "x.jpg", folder := "d", formatKnown := true,
    headerReadable := true, width := 100, height := 80, exif := exifC10,
    uid := 21 }

/-- User parameters with an explicit sensor width. -/
def userSW : UserParams := { userDefault with sensorWidth := 7 }

/-- The loop state after processing the two-camera one-frame rig group
rigC5 from the initial state. -/
def stC5 : GlobalState :=
  { rigId := 1, poseId := 1, intrinsicId := 2, nbCurrImages := 2,
    views := [(11,
      { imagePath := "a0.jpg", viewId := 11, intrinsicId := some 0,
        poseId := 0, width := 100, height := 100,
        rigAndSubPoseId := some (0, 0), metadata := ExifData.empty }),
      (13,
      { imagePath := "b0.jpg", viewId := 13, intrinsicId := some 1,
        poseId := 0, width := 100, height := 100,
        rigAndSubPoseId := some (0, 1), metadata := ExifData.empty })],
    intrinsics := [(0,
      { intrinsicType := .PINHOLE_CAMERA_RADIAL3, width := 100,
        height := 100, pxFocalLength := -1, ppx := ((100 : Int) : ℚ) / 2,
        ppy := ((100 : Int) : ℚ) / 2, initialFocalLengthPix := -1,
        distortionParams := [],
        serialNumber := some ("no_metadata_rig_0_0") }),
      (1,
      { intrinsicType := .PINHOLE_CAMERA_RADIAL3, width := 100,
        height := 100, pxFocalLength := -1, ppx := ((100 : Int) : ℚ) / 2,
        ppy := ((100 : Int) : ℚ) / 2, initialFocalLengthPix := -1,
        distortionParams := [],
        serialNumber := some ("no_metadata_rig_0_1") })],
    rigs := [(0, 2)],
    unknownSensorImages := [],
    noMetadataImages := [("a0.jpg"), ("b0.jpg")] }

/-! Helper lemmas. -/

/-- A filter misses at least one element exactly when some element fails
the predicate. -/
theorem length_filter_lt_of_exists_not {α : Type} {p : α → Bool}
    {l : List α} (h : ∃ a ∈ l, ¬ p a = true) :
    (l.filter p).length < l.length := by
  rcases Nat.lt_or_ge (l.filter p).length l.length with hlt | hge
  · exact hlt
  · exfalso
    have heq : (l.filter p).length = l.length :=
      Nat.le_antisymm (List.length_filter_le p l) hge
    rw [List.filter_length_eq_length] at heq
    obtain ⟨a, ha, hna⟩ := h
    exact hna (heq a ha)

/-- The kept elements of std::unique are pairwise distinct from their
successor, starting from any last kept element. -/
theorem uniqueTail_chain (l : List SensorInfo) :
    ∀ last, List.Chain (fun a b => SensorInfo.sameSensor a b = false)
      last (uniqueTail last l) := by
  induction l with
  | nil => intro last; exact List.Chain.nil
  | cons b rest ih =>
    intro last
    simp only [uniqueTail]
    split
    · exact ih last
    · next h => exact List.Chain.cons (by simpa using h) (ih b)

/-! Claim theorems. -/

/-- Claim C1 (code bug): the spec demands that EXIF-stated dimensions
equal to the transpose of the decoded ones are not flagged as resized,
while any other mismatch is flagged resized and (without an override)
forces the plain pinhole model.  The code contradicts its own comment
(line 283: if the metadata is bad, use the real image size); it adopts
the EXIF dimension only when it is non-positive, so a genuine resize
with positive EXIF dimensions is never flagged.  Here the decoded image
is 200 x 100, EXIF states 400 x 200 (neither equal nor transposed), yet
isResized is false and the inferred model stays radial-3 instead of the
plain pinhole model. -/
theorem claim_C1_code_bug :
    metaC1.width = 200 ∧ metaC1.height = 100 ∧
    exifC1.imageWidthTag = some 400 ∧ exifC1.imageHeightTag = some 200 ∧
    ¬((400 : Int) = 100 ∧ (200 : Int) = 200) ∧
    ¬((400 : Int) = 200 ∧ (200 : Int) = 100) ∧
    metaC1.haveValidMetadata = true ∧
    metaC1.isResized = false ∧
    (metaC1.computeIntrinsic).2.intrinsicType =
      EINTRINSIC.PINHOLE_CAMERA_RADIAL3 := by
  decide

/-- Claim C4 counterexample: after the program's deduplication
(std::unique without a preceding sort), the distinct pair (A, a) still
appears twice in the final report, because its two occurrences are
separated by a different pair — refuting the claim that each distinct
(brand, model) pair appears at most once. -/
theorem claim_C4_counterexample :
    uniqueConsecutive sensorListC4 = sensorListC4 ∧
    sensorListC4.countP (fun s => s.brand == "A" && s.model == "a") = 2 ∧
    (uniqueConsecutive sensorListC4).countP
      (fun s => s.brand == "A" && s.model == "a") = 2 := by
  decide

/-- Claim C4 (amended): the unknown-sensor list is deduplicated only
among consecutive entries — after std::unique no two adjacent entries
share a (brand, model) pair, but equal pairs separated by a different
pair may both remain; and a non-empty unknown-sensor list is fatal
regardless of how many per-image warnings occurred (the post-loop stage
returns the unknown-sensor failure whatever the warning lists hold). -/
theorem claim_C4_amended_thm :
    (∀ l, List.Chain' (fun a b => SensorInfo.sameSensor a b = false)
      (uniqueConsecutive l)) ∧
    (∀ user merge saveOk st, st.unknownSensorImages ≠ [] →
      postLoop user merge saveOk st = .unknownSensorFailure) := by
  constructor
  · intro l
    cases l with
    | nil => simp [uniqueConsecutive]
    | cons a rest =>
      simp only [uniqueConsecutive]
      exact uniqueTail_chain rest a
  · intro user merge saveOk st h
    unfold postLoop
    have hne : uniqueConsecutive st.unknownSensorImages ≠ [] := by
      cases hs : st.unknownSensorImages with
      | nil => exact absurd hs h
      | cons a rest => simp [uniqueConsecutive]
    simp [hne]

/-- Claim C4 witness: the amended statement at a concrete dedup input
and a concrete loop state with one unknown-sensor entry. -/
theorem claim_C4_witness :
    List.Chain' (fun a b => SensorInfo.sameSensor a b = false)
      (uniqueConsecutive sensorListC4) ∧
    postLoop userDefault (fun v => v) true gUnknown =
      .unknownSensorFailure :=
  ⟨claim_C4_amended_thm.1 sensorListC4,
   claim_C4_amended_thm.2 userDefault (fun v => v) true gUnknown
     (by decide)⟩

/-- Claim C7 counterexample: with the pixel focal length still unknown,
a positive millimeter focal length (10) and a sensor width of -2 — not
the unknown sentinel, but not strictly positive either — the program
still computes a pixel focal length (here -500), refuting the claim that
the computation happens only when the sensor width is strictly
positive. -/
theorem claim_C7_counterexample :
    metaC7.pxFocalLength = -1 ∧ 0 < metaC7.mmFocalLength ∧
    metaC7.ccdw = -2 ∧
    focalFromMm metaC7 = -500 ∧ ((-500 : ℚ)) ≠ -1 ∧
    (metaC7.computeIntrinsic).2.pxFocalLength = -500 := by
  refine ⟨by decide, by decide, by decide, by with_unfolding_all rfl,
    by decide, by with_unfolding_all rfl⟩

/-- Claim C7 (amended): whenever the pixel focal length has not been
fixed by an override (it is still the -1 sentinel), the intrinsic's
pixel focal length is max(metadata width, metadata height) x mm focal
length / sensor width, computed exactly when the millimeter focal length
is strictly positive and the sensor width differs from the -1 unknown
sentinel (its sign is not checked); when the millimeter focal length is
not positive, or the sensor width is the sentinel, the pixel focal
length stays -1. -/
theorem claim_C7_amended_thm (m : ImageMetadata)
    (hpx : m.pxFocalLength = -1) :
    (m.computeIntrinsic).2.pxFocalLength = focalFromMm m ∧
    (m.mmFocalLength ≤ 0 → focalFromMm m = -1) ∧
    (0 < m.mmFocalLength → m.ccdw ≠ -1 →
      focalFromMm m =
        (max m.metadataImageWidth m.metadataImageHeight : ℚ) *
          m.mmFocalLength / m.ccdw) ∧
    (0 < m.mmFocalLength → m.ccdw = -1 → focalFromMm m = -1) := by
  refine ⟨rfl, ?_, ?_, ?_⟩
  · intro hmm
    unfold focalFromMm
    rw [if_pos hpx, if_pos hmm]
    exact hpx
  · intro hmm hcc
    unfold focalFromMm
    rw [if_pos hpx, if_neg (by linarith), if_pos hcc]
  · intro hmm hcc
    unfold focalFromMm
    rw [if_pos hpx, if_neg (by linarith), if_neg (by simp [hcc])]
    exact hpx

/-- Claim C7 witness: the amended statement applied to a metadata state
with pixel focal length unknown, millimeter focal length 10 and sensor
width 5. -/
theorem claim_C7_witness :
    metaC7b.pxFocalLength = -1 ∧ 0 < metaC7b.mmFocalLength ∧
    metaC7b.ccdw = 5 ∧
    focalFromMm metaC7b =
      (max metaC7b.metadataImageWidth metaC7b.metadataImageHeight : ℚ) *
        metaC7b.mmFocalLength / metaC7b.ccdw :=
  ⟨by decide, by decide, by decide,
   (claim_C7_amended_thm metaC7b (by decide)).2.2.1 (by decide)
     (by decide)⟩

/-- Claim C8 (confirmed): after assignment, when every retained view
lacks a resolved intrinsic the final diagnostic is the fatal
all-views-without-intrinsics report (the run fails); when at least one
but not all views lack one, the diagnostic is the warning carrying the
exact count of views without intrinsics and the run succeeds. -/
theorem claim_C8 :
    (∀ views : List (Nat × View),
      (∀ kv ∈ views, kv.2.intrinsicId = none) →
      finalReport views = .allWithout ∧
      finishViews views = .allViewsWithoutIntrinsic) ∧
    (∀ views : List (Nat × View),
      (∃ kv ∈ views, kv.2.intrinsicId = none) →
      (∃ kv ∈ views, kv.2.intrinsicId ≠ none) →
      finalReport views = .someWithout (viewsWithoutIntrinsic views) ∧
      finishViews views = .success) := by
  constructor
  · intro views hall
    have hcount : viewsWithoutIntrinsic views = views.length := by
      unfold viewsWithoutIntrinsic
      rw [List.filter_length_eq_length]
      intro kv hkv
      simp [hall kv hkv]
    refine ⟨?_, ?_⟩
    · unfold finalReport
      simp [hcount]
    · unfold finishViews finalReport
      simp [hcount]
  · intro views hex hnex
    have h1 : 0 < viewsWithoutIntrinsic views := by
      unfold viewsWithoutIntrinsic
      obtain ⟨kv, hkv, hn⟩ := hex
      have hmem : kv ∈ views.filter (fun kv => kv.2.intrinsicId.isNone) := by
        rw [List.mem_filter]
        exact ⟨hkv, by simp [hn]⟩
      exact List.length_pos_of_mem hmem
    have h2 : viewsWithoutIntrinsic views < views.length := by
      unfold viewsWithoutIntrinsic
      apply length_filter_lt_of_exists_not
      obtain ⟨kv, hkv, hs⟩ := hnex
      refine ⟨kv, hkv, ?_⟩
      simp [Option.isNone_iff_eq_none]
      exact hs
    have hne : (viewsWithoutIntrinsic views == views.length) = false := by
      simp [Nat.ne_of_lt h2]
    refine ⟨?_, ?_⟩
    · unfold finalReport
      simp [hne, h1]
    · unfold finishViews finalReport
      simp [hne, h1]

/-- Claim C8 witness: the diagnostic at a one-view registry whose only
view lacks an intrinsic, and at a two-view registry where exactly one
view lacks one. -/
theorem claim_C8_witness :
    (finalReport [(30, viewNoIntr)] = .allWithout ∧
      finishViews [(30, viewNoIntr)] = .allViewsWithoutIntrinsic) ∧
    (finalReport [(30, viewNoIntr), (11, viewW)] =
        .someWithout (viewsWithoutIntrinsic [(30, viewNoIntr), (11, viewW)]) ∧
      finishViews [(30, viewNoIntr), (11, viewW)] = .success) :=
  ⟨claim_C8.1 [(30, viewNoIntr)] (by decide),
   claim_C8.2 [(30, viewNoIntr), (11, viewW)] (by decide) (by decide)⟩

/-- The lexicographic strict order is asymmetric. -/
theorem strListLt_asymm : ∀ (x y : List Char),
    strListLt x y = true → strListLt y x = false := by
  intro x
  induction x with
  | nil =>
    intro y h
    cases y with
    | nil => simp [strListLt] at h
    | cons b bs => simp [strListLt]
  | cons a as ih =>
    intro y h
    cases y with
    | nil => simp [strListLt] at h
    | cons b bs =>
      simp only [strListLt] at h ⊢
      by_cases h1 : a.toNat < b.toNat
      · rw [if_neg (by omega), if_pos h1]
      · by_cases h2 : b.toNat < a.toNat
        · rw [if_neg h1, if_pos h2] at h
          exact absurd h (by simp)
        · rw [if_neg h1, if_neg h2] at h
          rw [if_neg h2, if_neg h1]
          exact ih bs h

/-- Linearity of the lexicographic strict order: anything below a is,
for every b, either below b or above-by-b. -/
theorem strListLt_linear : ∀ (c a b : List Char),
    strListLt c a = true →
    strListLt c b = true ∨ strListLt b a = true := by
  intro c
  induction c with
  | nil =>
    intro a b h
    cases a with
    | nil => simp [strListLt] at h
    | cons aa as =>
      cases b with
      | nil => right; simp [strListLt]
      | cons bb bs => left; simp [strListLt]
  | cons cc cs ih =>
    intro a b h
    cases a with
    | nil => simp [strListLt] at h
    | cons aa as =>
      cases b with
      | nil => right; simp [strListLt]
      | cons bb bs =>
        simp only [strListLt] at h ⊢
        by_cases hca : cc.toNat < aa.toNat
        · by_cases hcb : cc.toNat < bb.toNat
          · left; rw [if_pos hcb]
          · right
            have hba : bb.toNat < aa.toNat := by omega
            rw [if_pos hba]
        · by_cases hac : aa.toNat < cc.toNat
          · rw [if_neg hca, if_pos hac] at h
            exact absurd h (by simp)
          · rw [if_neg hca, if_neg hac] at h
            by_cases hcb : cc.toNat < bb.toNat
            · left; rw [if_pos hcb]
            · by_cases hbc : bb.toNat < cc.toNat
              · right
                have hba : bb.toNat < aa.toNat := by omega
                rw [if_pos hba]
              · rcases ih as bs h with h3 | h3
                · left; rw [if_neg hcb, if_neg hbc]; exact h3
                · right
                  have e1 : ¬ bb.toNat < aa.toNat := by omega
                  have e2 : ¬ aa.toNat < bb.toNat := by omega
                  rw [if_neg e1, if_neg e2]; exact h3

/-- The derived order on strings is total. -/
instance strLeIsTotal : IsTotal String (fun a b => strLe a b = true) := by
  constructor
  intro a b
  unfold strLe
  by_cases h : strListLt b.data a.data = true
  · right
    rw [strListLt_asymm b.data a.data h]
    rfl
  · left
    simp at h
    rw [h]
    rfl

/-- The derived order on strings is transitive. -/
instance strLeIsTrans : IsTrans String (fun a b => strLe a b = true) := by
  constructor
  intro a b c hab hbc
  unfold strLe at hab hbc ⊢
  by_cases h : strListLt c.data a.data = true
  · rcases strListLt_linear c.data a.data b.data h with h2 | h2
    · rw [h2] at hbc
      exact absurd hbc (by simp)
    · rw [h2] at hab
      exact absurd hab (by simp)
  · simp at h
    rw [h]
    rfl

/-- Claim C3 counterexample: a directory holding one supported file
(a.jpg) and one file whose extension is not in the allow-list (b.txt)
resolves to two singleton groups, not one — directory-mode resolution
performs no extension filtering, refuting the claim that the M
unsupported files contribute no group. -/
theorem claim_C3_counterexample :
    resolveDirectory true [("b.txt"), ("a.jpg")] =
      .ok [[[("a.jpg")]], [[("b.txt")]]] ∧
    (["jpg", "jpeg"].contains ("txt")) = false := by
  exact ⟨by rfl, by rfl⟩

/-- Claim C3 (amended): directory-mode resolution produces one singleton
group (one camera, one frame) per immediate file of the directory —
regardless of extension, so N supported plus M unsupported files yield
N + M groups — ordered by lexicographically sorted filename, and fails
when the directory does not exist or lists no files. -/
theorem claim_C3_amended_thm :
    (∀ files, resolveDirectory false files = .error ()) ∧
    (∀ dirExists, resolveDirectory dirExists [] = .error ()) ∧
    (∀ files : List String, files ≠ [] →
      ∃ sorted : List String,
        resolveDirectory true files = .ok (sorted.map (fun p => [[p]])) ∧
        sorted.Perm files ∧ sorted.length = files.length ∧
        List.Sorted (fun a b => strLe a b = true) sorted) := by
  refine ⟨fun files => rfl, ?_, ?_⟩
  · intro dirExists
    cases dirExists <;> rfl
  · intro files hne
    refine ⟨files.insertionSort (fun a b => strLe a b = true), ?_, ?_, ?_, ?_⟩
    · unfold resolveDirectory
      have h1 : files.isEmpty = false := by
        cases files with
        | nil => exact absurd rfl hne
        | cons a l => rfl
      simp [h1]
    · exact List.perm_insertionSort _ files
    · exact (List.perm_insertionSort _ files).length_eq
    · exact List.sorted_insertionSort _ files

/-- Claim C3 witness: the amended statement at the two-file directory of
the counterexample. -/
theorem claim_C3_witness :
    ∃ sorted : List String,
      resolveDirectory true [("b.txt"), ("a.jpg")] =
        .ok (sorted.map (fun p => [[p]])) ∧
      sorted.Perm [("b.txt"), ("a.jpg")] ∧
      sorted.length = 2 ∧
      List.Sorted (fun a b => strLe a b = true) sorted :=
  claim_C3_amended_thm.2.2 [("b.txt"), ("a.jpg")] (by decide)

/-- The error report of manifest resolution is the concatenation of the
per-entry reports: a failing entry never truncates later reports. -/
theorem retrieveResources_errors (exts : List String) :
    ∀ entries, (retrieveResources exts entries).errors =
      entries.flatMap (fun e => (processEntry exts e).errors) := by
  intro entries
  induction entries with
  | nil => rfl
  | cons e rest ih => simp [retrieveResources, ih]

/-- The resolved resources of manifest resolution are the concatenation
of the per-entry resources. -/
theorem retrieveResources_resources (exts : List String) :
    ∀ entries, (retrieveResources exts entries).resources =
      entries.flatMap (fun e => (processEntry exts e).resources) := by
  intro entries
  induction entries with
  | nil => rfl
  | cons e rest ih => simp [retrieveResources, ih]

/-- Manifest resolution succeeds exactly when every top-level entry
resolves. -/
theorem retrieveResources_ok (exts : List String) :
    ∀ entries, (retrieveResources exts entries).ok =
      entries.all (fun e => (processEntry exts e).ok) := by
  intro entries
  induction entries with
  | nil => rfl
  | cons e rest ih => simp [retrieveResources, ih, List.all_cons]

/-- Claim C9 (confirmed): for every manifest with at least one
unresolvable top-level entry, resolution returns failure, but only after
processing every top-level entry: the reported offending paths and the
resolved resources are exactly the concatenations over all entries, so a
failure on one entry does not stop examination and reporting of the
remaining entries.  A missing path and an empty directory each make
listFiles (and hence the entry resolving that path) fail. -/
theorem claim_C9 (exts : List String) (entries : List ManifestEntry)
    (h : ∃ e ∈ entries, (processEntry exts e).ok = false) :
    (retrieveResources exts entries).ok = false ∧
    (retrieveResources exts entries).errors =
      entries.flatMap (fun e => (processEntry exts e).errors) ∧
    (retrieveResources exts entries).resources =
      entries.flatMap (fun e => (processEntry exts e).resources) ∧
    (∀ node, (processEntry exts (.str node)).ok = (listFiles exts node).ok) ∧
    (∀ p, (listFiles exts (.missing p)).ok = false) ∧
    (∀ p, (listFiles exts (.folder p [])).ok = false) := by
  refine ⟨?_, retrieveResources_errors exts entries,
    retrieveResources_resources exts entries,
    fun node => rfl, fun p => rfl, fun p => rfl⟩
  rw [retrieveResources_ok]
  obtain ⟨e, he, hfe⟩ := h
  apply List.all_eq_false.mpr
  exact ⟨e, he, by simp [hfe]⟩

/-- Claim C9 witness: a manifest with a missing path and an empty
directory around a resolvable file. -/
theorem claim_C9_witness :
    (retrieveResources ["jpg", "jpeg"] manifestC9).ok = false ∧
    (retrieveResources ["jpg", "jpeg"] manifestC9).errors =
      manifestC9.flatMap
        (fun e => (processEntry ["jpg", "jpeg"] e).errors) ∧
    (retrieveResources ["jpg", "jpeg"] manifestC9).resources =
      manifestC9.flatMap
        (fun e => (processEntry ["jpg", "jpeg"] e).resources) ∧
    (∀ node, (processEntry ["jpg", "jpeg"] (.str node)).ok =
      (listFiles ["jpg", "jpeg"] node).ok) ∧
    (∀ p, (listFiles ["jpg", "jpeg"] (FSNode.missing p)).ok = false) ∧
    (∀ p, (listFiles ["jpg", "jpeg"] (FSNode.folder p [])).ok = false) :=
  claim_C9 ["jpg", "jpeg"] manifestC9
    ⟨.str (.missing ("gone.jpg")),
     by unfold manifestC9; exact List.mem_cons_self _ _, by rfl⟩

/-- hasKey decides membership of a key in the view registry. -/
theorem hasKey_eq_false_iff (vs : List (Nat × View)) (k : Nat) :
    hasKey vs k = false ↔ k ∉ vs.map Prod.fst := by
  unfold hasKey
  rw [List.any_eq_false]
  constructor
  · intro h hmem
    obtain ⟨kv, hkv, he⟩ := List.mem_map.mp hmem
    exact absurd (by simp [he]) (h kv hkv)
  · intro h kv hkv
    intro hbeq
    exact h (List.mem_map.mpr ⟨kv, hkv, by simpa using hbeq⟩)

/-- Appending a fresh key preserves key distinctness. -/
theorem nodup_keys_append (vs : List (Nat × View)) (k : Nat) (v : View)
    (hk : hasKey vs k = false) (h : (vs.map Prod.fst).Nodup) :
    ((vs ++ [(k, v)]).map Prod.fst).Nodup := by
  rw [List.map_append, List.nodup_append]
  refine ⟨h, by simp, ?_⟩
  intro a ha hb
  simp at hb
  subst hb
  exact (hasKey_eq_false_iff vs a).mp hk ha

/-- firstImageProcess changes only the diagnostic lists and the intrinsic
registry: the view registry, the pose counter and the rig id counter are
untouched, and the unknown-sensor list grows exactly when the frame
satisfies the unknown-sensor push condition. -/
theorem firstImageProcess_spec (P : CamParams) (img : ImageFile)
    (g : GlobalState) :
    (firstImageProcess P img g).2.rigId = g.rigId ∧
    (firstImageProcess P img g).2.poseId = g.poseId ∧
    (firstImageProcess P img g).2.views = g.views ∧
    ((unknownSensorPush P.user P.database img = false ∧
        (firstImageProcess P img g).2.unknownSensorImages =
          g.unknownSensorImages) ∨
      (unknownSensorPush P.user P.database img = true ∧
        ∃ s, (firstImageProcess P img g).2.unknownSensorImages =
          g.unknownSensorImages ++ [s])) := by
  by_cases hpush : unknownSensorPush P.user P.database img = true
  · have hp : (sensorWidthStep P.user P.database
        (metadataAfterOverrides P.user img)).2 = true := hpush
    refine ⟨?_, ?_, ?_, Or.inr ⟨hpush, ?_⟩⟩
    · unfold firstImageProcess
      simp only [hp, if_true]
      split <;> rfl
    · unfold firstImageProcess
      simp only [hp, if_true]
      split <;> rfl
    · unfold firstImageProcess
      simp only [hp, if_true]
      split <;> rfl
    · unfold firstImageProcess
      simp only [hp, if_true]
      refine ⟨⟨img.path,
        (sensorWidthStep P.user P.database
          (metadataAfterOverrides P.user img)).1.cameraBrand,
        (sensorWidthStep P.user P.database
          (metadataAfterOverrides P.user img)).1.cameraModel⟩, ?_⟩
      split <;> rfl
  · have hp : (sensorWidthStep P.user P.database
        (metadataAfterOverrides P.user img)).2 = false := by
      simpa using hpush
    refine ⟨?_, ?_, ?_, Or.inl ⟨by simpa using hpush, ?_⟩⟩ <;>
    · unfold firstImageProcess
      simp only [hp, Bool.false_eq_true, if_false]
      split <;> rfl

/-- addViewStep leaves the diagnostic lists, the rig id and the intrinsic
registry untouched; it either skips a duplicate view id (state unchanged)
or appends one view carrying the rig-aware pose id and rig binding,
advancing the pose counter only outside a rig. -/
theorem addViewStep_spec (P : CamParams) (k : Nat) (cv : CamVars)
    (g : GlobalState) (img : ImageFile) :
    (addViewStep P k cv g img).2.rigId = g.rigId ∧
    (addViewStep P k cv g img).2.unknownSensorImages =
      g.unknownSensorImages ∧
    g.poseId ≤ (addViewStep P k cv g img).2.poseId ∧
    (P.isRig = true → (addViewStep P k cv g img).2.poseId = g.poseId) ∧
    ((addViewStep P k cv g img).2.views = g.views ∨
      (hasKey g.views img.uid = false ∧ ∃ v : View,
        (addViewStep P k cv g img).2.views = g.views ++ [(img.uid, v)] ∧
        v.poseId = (if P.isRig = true then g.poseId + k else g.poseId) ∧
        v.imagePath = img.path ∧
        v.rigAndSubPoseId =
          (if P.isRig = true then some (g.rigId, P.cameraId) else none))) := by
  by_cases hk : hasKey g.views img.uid = true
  · unfold addViewStep
    rw [if_pos hk]
    exact ⟨rfl, rfl, le_refl _, fun _ => rfl, Or.inl rfl⟩
  · have hk₂ : hasKey g.views img.uid = false := by simpa using hk
    unfold addViewStep
    rw [if_neg (by simp [hk₂])]
    cases hr : P.isRig with
    | true =>
      exact ⟨rfl, rfl, le_refl _, fun _ => rfl,
        Or.inr ⟨hk₂, _, rfl, rfl, rfl, rfl⟩⟩
    | false =>
      exact ⟨rfl, rfl, Nat.le_succ _, fun hc => Bool.noConfusion hc,
        Or.inr ⟨hk₂, _, rfl, rfl, rfl, rfl⟩⟩

/-- The per-frame master lemma: when a frame does not abort the run, the
rig id is unchanged, the pose counter never decreases (and is unchanged
inside a rig), the view registry either stays or gains exactly the view
of this frame — keyed by its uid, with pose id equal to the shared
counter plus the frame index inside a rig — and the unknown-sensor list
grows exactly when the push condition holds. -/
theorem processFrame_ok_spec (P : CamParams) (k : Nat) (cv : CamVars)
    (g : GlobalState) (img : ImageFile) (r : CamVars × GlobalState)
    (h : processFrame P k cv g img = .ok r) :
    r.2.rigId = g.rigId ∧
    g.poseId ≤ r.2.poseId ∧
    (P.isRig = true → r.2.poseId = g.poseId) ∧
    (r.2.views = g.views ∨
      (hasKey g.views img.uid = false ∧ ∃ v : View,
        r.2.views = g.views ++ [(img.uid, v)] ∧
        v.poseId = (if P.isRig = true then g.poseId + k else g.poseId) ∧
        v.imagePath = img.path ∧
        v.rigAndSubPoseId =
          (if P.isRig = true then some (g.rigId, P.cameraId) else none))) ∧
    (r.2.unknownSensorImages = g.unknownSensorImages ∨
      (unknownSensorPush P.user P.database img = true ∧
        ∃ s, r.2.unknownSensorImages = g.unknownSensorImages ++ [s])) := by
  unfold processFrame at h
  by_cases h1 : img.formatKnown = false
  · rw [if_pos (by simp [h1])] at h
    obtain rfl : (cv, g) = r := by simpa using h
    exact ⟨rfl, le_refl _, fun _ => rfl, Or.inl rfl, Or.inl rfl⟩
  · rw [if_neg (by simpa using h1)] at h
    by_cases h2 : img.headerReadable = false
    · rw [if_pos (by simp [h2])] at h
      obtain rfl : (cv, g) = r := by simpa using h
      exact ⟨rfl, le_refl _, fun _ => rfl, Or.inl rfl, Or.inl rfl⟩
    · rw [if_neg (by simpa using h2)] at h
      by_cases h3 : img.width ≤ 0 ∨ img.height ≤ 0
      · rw [if_pos h3] at h
        obtain rfl : (cv, g) = r := by simpa using h
        exact ⟨rfl, le_refl _, fun _ => rfl, Or.inl rfl, Or.inl rfl⟩
      · rw [if_neg h3] at h
        by_cases h4 : cv.isCameraFirstImage = true
        · rw [if_pos h4] at h
          obtain rfl :
              addViewStep P k (firstImageProcess P img g).1
                (firstImageProcess P img g).2 img = r := by simpa using h
          obtain ⟨frig, fpose, fviews, funknown⟩ :=
            firstImageProcess_spec P img g
          obtain ⟨arig, aunknown, apose_le, apose_rig, aviews⟩ :=
            addViewStep_spec P k (firstImageProcess P img g).1
              (firstImageProcess P img g).2 img
          refine ⟨arig.trans frig, ?_, ?_, ?_, ?_⟩
          · rw [fpose] at apose_le; exact apose_le
          · intro hr; rw [apose_rig hr, fpose]
          · rcases aviews with ha | ⟨hkf, v, hv, hvp, hvpath, hvr⟩
            · left; rw [ha, fviews]
            · right
              rw [fviews] at hkf
              refine ⟨hkf, v, ?_, ?_, hvpath, ?_⟩
              · rw [hv, fviews]
              · rw [hvp, fpose]
              · rw [hvr, frig]
          · rcases funknown with ⟨_, hu⟩ | ⟨hp, s, hu⟩
            · left; rw [aunknown, hu]
            · right; exact ⟨hp, s, by rw [aunknown, hu]⟩
        · rw [if_neg h4] at h
          by_cases h5 : img.width ≠ cv.cameraWidth ∧
              img.height ≠ cv.cameraHeight
          · rw [if_pos h5] at h
            exact absurd h (by simp)
          · rw [if_neg h5] at h
            obtain rfl : addViewStep P k cv g img = r := by simpa using h
            obtain ⟨arig, aunknown, apose_le, apose_rig, aviews⟩ :=
              addViewStep_spec P k cv g img
            exact ⟨arig, apose_le, apose_rig, aviews, Or.inl aunknown⟩

/-- The frame-loop master lemma: over one camera's frame list the rig id
is unchanged, the pose counter never decreases (and is unchanged inside a
rig), the view registry is only extended — inside a rig every added view
stems from some frame index i of the list, carries pose id equal to the
shared counter plus the absolute frame index, and records the rig binding
of this camera — and key distinctness of the registry is preserved. -/
theorem processFrames_spec (P : CamParams) :
    ∀ (l : List ImageFile) (k : Nat) (cv : CamVars) (g g' : GlobalState),
    processFrames P l k cv g = .ok g' →
    g'.rigId = g.rigId ∧
    g.poseId ≤ g'.poseId ∧
    (P.isRig = true → g'.poseId = g.poseId) ∧
    ∃ tail, g'.views = g.views ++ tail ∧
      (∀ kv ∈ tail, g.poseId ≤ kv.2.poseId ∧
        (P.isRig = true → ∃ i, ∃ hi : i < l.length,
          kv.1 = (l.get ⟨i, hi⟩).uid ∧
          kv.2.poseId = g.poseId + k + i ∧
          kv.2.rigAndSubPoseId = some (g.rigId, P.cameraId))) ∧
      ((g.views.map Prod.fst).Nodup → (g'.views.map Prod.fst).Nodup) := by
  intro l
  induction l with
  | nil =>
    intro k cv g g' h
    simp only [processFrames] at h
    obtain rfl : g = g' := by simpa using h
    exact ⟨rfl, le_refl _, fun _ => rfl, [], by simp, fun kv hkv => absurd hkv
      (List.not_mem_nil kv), id⟩
  | cons img rest ih =>
    intro k cv g g' h
    simp only [processFrames] at h
    cases hf : processFrame P k cv g img with
    | error e => rw [hf] at h; exact absurd h (by simp)
    | ok r =>
      rw [hf] at h
      simp only at h
      obtain ⟨frig, fle, frigpose, fviews, _⟩ :=
        processFrame_ok_spec P k cv g img r hf
      obtain ⟨hrig, hle, hrigpose, tail, hviews, htail, hnodup⟩ :=
        ih (k + 1) r.1 r.2 g' h
      refine ⟨hrig.trans frig, le_trans fle hle, ?_, ?_⟩
      · intro hr; rw [hrigpose hr, frigpose hr]
      rcases fviews with hsame | ⟨hkf, v, hv, hvp, hvpath, hvr⟩
      · refine ⟨tail, by rw [hviews, hsame], ?_, ?_⟩
        · intro kv hkv
          obtain ⟨h1, h2⟩ := htail kv hkv
          refine ⟨le_trans fle h1, ?_⟩
          intro hr
          obtain ⟨i, hi, hu, hp, hsub⟩ := h2 hr
          refine ⟨i + 1, by simpa using Nat.succ_lt_succ hi, ?_, ?_, ?_⟩
          · simpa using hu
          · rw [hp, frigpose hr]
            omega
          · rw [hsub, frig]
        · intro hd
          apply hnodup
          rw [hsame]
          exact hd
      · refine ⟨(img.uid, v) :: tail, ?_, ?_, ?_⟩
        · rw [hviews, hv]
          simp
        · intro kv hkv
          rcases List.mem_cons.mp hkv with rfl | hkv₂
          · refine ⟨?_, ?_⟩
            · rw [hvp]
              split <;> omega
            · intro hr
              refine ⟨0, by simp, by simp, ?_, ?_⟩
              · simp only [hvp, if_pos hr]
                omega
              · rw [hvr, if_pos hr]
          · obtain ⟨h1, h2⟩ := htail kv hkv₂
            refine ⟨le_trans fle h1, ?_⟩
            intro hr
            obtain ⟨i, hi, hu, hp, hsub⟩ := h2 hr
            refine ⟨i + 1, by simpa using Nat.succ_lt_succ hi, ?_, ?_, ?_⟩
            · simpa using hu
            · rw [hp, frigpose hr]
              omega
            · rw [hsub, frig]
        · intro hd
          apply hnodup
          rw [hv]
          exact nodup_keys_append g.views img.uid v hkf hd

/-- The one-camera master lemma: processing one camera preserves the rig
id, never decreases the pose counter (and preserves it inside a rig),
only extends the view registry — inside a rig every added view stems from
some frame index f of this camera, carries pose id shared counter + f and
the rig binding (rig id, camera id) — and preserves key distinctness. -/
theorem processCamera_spec (user : UserParams) (database : List Datasheet)
    (groupId cameraId : Nat) (isRig : Bool) (nbCameras : Nat)
    (frames : List ImageFile) (g g' : GlobalState)
    (h : processCamera user database groupId cameraId isRig nbCameras
      frames g = .ok g') :
    g'.rigId = g.rigId ∧
    g.poseId ≤ g'.poseId ∧
    (isRig = true → g'.poseId = g.poseId) ∧
    ∃ tail, g'.views = g.views ++ tail ∧
      (∀ kv ∈ tail, g.poseId ≤ kv.2.poseId ∧
        (isRig = true → ∃ f, ∃ hf : f < frames.length,
          kv.1 = (frames.get ⟨f, hf⟩).uid ∧
          kv.2.poseId = g.poseId + f ∧
          kv.2.rigAndSubPoseId = some (g.rigId, cameraId))) ∧
      ((g.views.map Prod.fst).Nodup → (g'.views.map Prod.fst).Nodup) := by
  unfold processCamera at h
  cases isRig with
  | false =>
    simp only [Bool.false_eq_true, if_false] at h
    obtain ⟨hrig, hle, _, tail, hviews, htail, hnodup⟩ :=
      processFrames_spec _ frames 0 _ _ g' h
    refine ⟨hrig, hle, fun hc => Bool.noConfusion hc, tail, hviews, ?_,
      hnodup⟩
    intro kv hkv
    exact ⟨(htail kv hkv).1, fun hc => Bool.noConfusion hc⟩
  | true =>
    simp only [eq_self_iff_true, if_true] at h
    obtain ⟨hrig, hle, hrigpose, tail, hviews, htail, hnodup⟩ :=
      processFrames_spec _ frames 0 _ _ g' h
    refine ⟨hrig, hle, fun _ => hrigpose rfl, tail, hviews, ?_, hnodup⟩
    intro kv hkv
    obtain ⟨h1, h2⟩ := htail kv hkv
    refine ⟨h1, fun _ => ?_⟩
    obtain ⟨i, hi, hu, hp, hsub⟩ := h2 rfl
    exact ⟨i, hi, hu, by simpa using hp, hsub⟩

/-- The camera-loop master lemma: over the cameras of one group, with
camera ids counted from c₀, the rig id is preserved, the pose counter
never decreases (and is preserved inside a rig), the view registry is
only extended — inside a rig every added view stems from camera index c
and frame index f with pose id shared counter + f and rig binding
(rig id, c₀ + c) — and key distinctness is preserved. -/
theorem processCameras_spec (user : UserParams) (database : List Datasheet)
    (groupId : Nat) (isRig : Bool) (nbCameras : Nat) :
    ∀ (cams : List (List ImageFile)) (c₀ : Nat) (g g' : GlobalState),
    processCameras user database groupId isRig nbCameras cams c₀ g =
      .ok g' →
    g'.rigId = g.rigId ∧
    g.poseId ≤ g'.poseId ∧
    (isRig = true → g'.poseId = g.poseId) ∧
    ∃ tail, g'.views = g.views ++ tail ∧
      (∀ kv ∈ tail, g.poseId ≤ kv.2.poseId ∧
        (isRig = true → ∃ c, ∃ hc : c < cams.length, ∃ f,
          ∃ hf : f < (cams.get ⟨c, hc⟩).length,
          kv.1 = ((cams.get ⟨c, hc⟩).get ⟨f, hf⟩).uid ∧
          kv.2.poseId = g.poseId + f ∧
          kv.2.rigAndSubPoseId = some (g.rigId, c₀ + c))) ∧
      ((g.views.map Prod.fst).Nodup → (g'.views.map Prod.fst).Nodup) := by
  intro cams
  induction cams with
  | nil =>
    intro c₀ g g' h
    simp only [processCameras] at h
    obtain rfl : g = g' := by simpa using h
    exact ⟨rfl, le_refl _, fun _ => rfl, [], by simp,
      fun kv hkv => absurd hkv (List.not_mem_nil kv), id⟩
  | cons cam rest ih =>
    intro c₀ g g' h
    simp only [processCameras] at h
    cases hc : processCamera user database groupId c₀ isRig nbCameras cam g
    with
    | error e => rw [hc] at h; exact absurd h (by simp)
    | ok g₁ =>
      rw [hc] at h
      simp only at h
      obtain ⟨frig, fle, frigpose, tail₁, hviews₁, htail₁, hnodup₁⟩ :=
        processCamera_spec user database groupId c₀ isRig nbCameras cam g
          g₁ hc
      obtain ⟨hrig, hle, hrigpose, tail₂, hviews₂, htail₂, hnodup₂⟩ :=
        ih (c₀ + 1) g₁ g' h
      refine ⟨hrig.trans frig, le_trans fle hle, ?_,
        tail₁ ++ tail₂, ?_, ?_, fun hd => hnodup₂ (hnodup₁ hd)⟩
      · intro hr; rw [hrigpose hr, frigpose hr]
      · rw [hviews₂, hviews₁, List.append_assoc]
      · intro kv hkv
        rcases List.mem_append.mp hkv with hkv₁ | hkv₂
        · obtain ⟨h1, h2⟩ := htail₁ kv hkv₁
          refine ⟨h1, fun hr => ?_⟩
          obtain ⟨f, hf, hu, hp, hsub⟩ := h2 hr
          refine ⟨0, by simp, f, hf, hu, hp, ?_⟩
          rw [hsub]
          simp
        · obtain ⟨h1, h2⟩ := htail₂ kv hkv₂
          refine ⟨le_trans fle h1, fun hr => ?_⟩
          obtain ⟨c, hcl, f, hf, hu, hp, hsub⟩ := h2 hr
          refine ⟨c + 1, by simpa using Nat.succ_lt_succ hcl, f,
            by simpa using hf, by simpa using hu, ?_, ?_⟩
          · rw [hp, frigpose hr]
          · rw [hsub, frig]
            congr 2
            omega

/-- The rig-group master lemma: processing a group with more than one
camera advances the rig id by one and the shared pose counter by the
first camera's frame count, exactly once, after all cameras; every view
added by the group stems from a camera index c and a frame index f, with
pose id equal to the entry pose counter plus f — so views of distinct
cameras at the same frame index share one pose id and views at distinct
frame indices never collide — and carries the rig binding (rig id, c);
key distinctness of the registry is preserved. -/
theorem processGroup_spec_rig (user : UserParams)
    (database : List Datasheet) (groupId : Nat)
    (group : List (List ImageFile)) (g g' : GlobalState)
    (hrig : 1 < group.length)
    (h : processGroup user database groupId group g = .ok g') :
    g'.rigId = g.rigId + 1 ∧
    g'.poseId = g.poseId + (group.headD []).length ∧
    ∃ tail, g'.views = g.views ++ tail ∧
      (∀ kv ∈ tail, ∃ c, ∃ hc : c < group.length, ∃ f,
        ∃ hf : f < (group.get ⟨c, hc⟩).length,
        kv.1 = ((group.get ⟨c, hc⟩).get ⟨f, hf⟩).uid ∧
        kv.2.poseId = g.poseId + f ∧
        kv.2.rigAndSubPoseId = some (g.rigId, c)) ∧
      ((g.views.map Prod.fst).Nodup → (g'.views.map Prod.fst).Nodup) := by
  unfold processGroup at h
  simp only at h
  cases hc : processCameras user database groupId
      (decide (group.length > 1)) group.length group 0 g with
  | error e => rw [hc] at h; exact absurd h (by simp)
  | ok g₁ =>
    rw [hc] at h
    simp only at h
    rw [if_pos hrig] at h
    injection h with h₂
    subst h₂
    have hdec : decide (group.length > 1) = true := by simpa using hrig
    obtain ⟨hrig₁, hle, hrigpose, tail, hviews, htail, hnodup⟩ :=
      processCameras_spec user database groupId _ group.length group 0 g g₁
        hc
    refine ⟨by simp [hrig₁], by simp [hrigpose hdec], tail, hviews, ?_,
      hnodup⟩
    intro kv hkv
    obtain ⟨h1, h2⟩ := htail kv hkv
    obtain ⟨c, hcl, f, hf, hu, hp, hsub⟩ := h2 hdec
    exact ⟨c, hcl, f, hf, hu, hp, by simpa using hsub⟩

/-- Monotonicity of one group: the pose counter never decreases, the
view registry only grows, added views carry pose ids at least the entry
counter, and key distinctness is preserved. -/
theorem processGroup_mono (user : UserParams) (database : List Datasheet)
    (groupId : Nat) (group : List (List ImageFile)) (g g' : GlobalState)
    (h : processGroup user database groupId group g = .ok g') :
    g.poseId ≤ g'.poseId ∧
    ∃ tail, g'.views = g.views ++ tail ∧
      (∀ kv ∈ tail, g.poseId ≤ kv.2.poseId) ∧
      ((g.views.map Prod.fst).Nodup → (g'.views.map Prod.fst).Nodup) := by
  unfold processGroup at h
  simp only at h
  cases hc : processCameras user database groupId
      (decide (group.length > 1)) group.length group 0 g with
  | error e => rw [hc] at h; exact absurd h (by simp)
  | ok g₁ =>
    rw [hc] at h
    simp only at h
    obtain ⟨_, hle, _, tail, hviews, htail, hnodup⟩ :=
      processCameras_spec user database groupId _ group.length group 0 g g₁
        hc
    by_cases hr : group.length > 1
    · rw [if_pos hr] at h
      injection h with h₂
      subst h₂
      exact ⟨le_trans hle (Nat.le_add_right _ _), tail, hviews,
        fun kv hkv => (htail kv hkv).1, hnodup⟩
    · rw [if_neg hr] at h
      obtain rfl : g₁ = g' := by simpa using h
      exact ⟨hle, tail, hviews, fun kv hkv => (htail kv hkv).1, hnodup⟩

/-- Monotonicity of the group loop: the pose counter never decreases,
the view registry only grows, every added view carries a pose id at
least the entry counter, and key distinctness is preserved. -/
theorem runGroups_mono (user : UserParams) (database : List Datasheet) :
    ∀ (gs : List (List (List ImageFile))) (gid : Nat)
      (g g' : GlobalState),
    runGroups user database gs gid g = .ok g' →
    g.poseId ≤ g'.poseId ∧
    ∃ tail, g'.views = g.views ++ tail ∧
      (∀ kv ∈ tail, g.poseId ≤ kv.2.poseId) ∧
      ((g.views.map Prod.fst).Nodup → (g'.views.map Prod.fst).Nodup) := by
  intro gs
  induction gs with
  | nil =>
    intro gid g g' h
    simp only [runGroups] at h
    obtain rfl : g = g' := by simpa using h
    exact ⟨le_refl _, [], by simp,
      fun kv hkv => absurd hkv (List.not_mem_nil kv), id⟩
  | cons gr rest ih =>
    intro gid g g' h
    simp only [runGroups] at h
    cases hc : processGroup user database gid gr g with
    | error e => rw [hc] at h; exact absurd h (by simp)
    | ok g₁ =>
      rw [hc] at h
      simp only at h
      obtain ⟨fle, tail₁, hviews₁, htail₁, hnodup₁⟩ :=
        processGroup_mono user database gid gr g g₁ hc
      obtain ⟨hle, tail₂, hviews₂, htail₂, hnodup₂⟩ :=
        ih (gid + 1) g₁ g' h
      refine ⟨le_trans fle hle, tail₁ ++ tail₂, ?_, ?_,
        fun hd => hnodup₂ (hnodup₁ hd)⟩
      · rw [hviews₂, hviews₁, List.append_assoc]
      · intro kv hkv
        rcases List.mem_append.mp hkv with hkv₁ | hkv₂
        · exact htail₁ kv hkv₁
        · exact le_trans fle (htail₂ kv hkv₂)

/-- When no frame can satisfy the unknown-sensor push condition, the
frame loop leaves the unknown-sensor report list unchanged. -/
theorem processFrames_unknown (P : CamParams)
    (hp : ∀ img, unknownSensorPush P.user P.database img = false) :
    ∀ (l : List ImageFile) (k : Nat) (cv : CamVars) (g g' : GlobalState),
    processFrames P l k cv g = .ok g' →
    g'.unknownSensorImages = g.unknownSensorImages := by
  intro l
  induction l with
  | nil =>
    intro k cv g g' h
    simp only [processFrames] at h
    obtain rfl : g = g' := by simpa using h
    rfl
  | cons img rest ih =>
    intro k cv g g' h
    simp only [processFrames] at h
    cases hf : processFrame P k cv g img with
    | error e => rw [hf] at h; exact absurd h (by simp)
    | ok r =>
      rw [hf] at h
      simp only at h
      obtain ⟨_, _, _, _, hunknown⟩ := processFrame_ok_spec P k cv g img r hf
      rcases hunknown with hu | ⟨hpush, _, _⟩
      · rw [ih (k + 1) r.1 r.2 g' h, hu]
      · exact absurd hpush (by simp [hp img])

/-- When no frame can satisfy the unknown-sensor push condition, one
camera leaves the unknown-sensor report list unchanged. -/
theorem processCamera_unknown (user : UserParams)
    (database : List Datasheet)
    (hp : ∀ img, unknownSensorPush user database img = false)
    (groupId cameraId : Nat) (isRig : Bool) (nbCameras : Nat)
    (frames : List ImageFile) (g g' : GlobalState)
    (h : processCamera user database groupId cameraId isRig nbCameras
      frames g = .ok g') :
    g'.unknownSensorImages = g.unknownSensorImages := by
  unfold processCamera at h
  cases isRig with
  | false =>
    simp only [Bool.false_eq_true, if_false] at h
    have h₂ := processFrames_unknown _ hp frames 0 _ _ g' h
    exact h₂
  | true =>
    simp only [eq_self_iff_true, if_true] at h
    have h₂ := processFrames_unknown _ hp frames 0 _ _ g' h
    exact h₂

/-- When no frame can satisfy the unknown-sensor push condition, the
camera loop leaves the unknown-sensor report list unchanged. -/
theorem processCameras_unknown (user : UserParams)
    (database : List Datasheet)
    (hp : ∀ img, unknownSensorPush user database img = false)
    (groupId : Nat) (isRig : Bool) (nbCameras : Nat) :
    ∀ (cams : List (List ImageFile)) (c₀ : Nat) (g g' : GlobalState),
    processCameras user database groupId isRig nbCameras cams c₀ g =
      .ok g' →
    g'.unknownSensorImages = g.unknownSensorImages := by
  intro cams
  induction cams with
  | nil =>
    intro c₀ g g' h
    simp only [processCameras] at h
    obtain rfl : g = g' := by simpa using h
    rfl
  | cons cam rest ih =>
    intro c₀ g g' h
    simp only [processCameras] at h
    cases hc : processCamera user database groupId c₀ isRig nbCameras cam g
    with
    | error e => rw [hc] at h; exact absurd h (by simp)
    | ok g₁ =>
      rw [hc] at h
      simp only at h
      rw [ih (c₀ + 1) g₁ g' h,
        processCamera_unknown user database hp groupId c₀ isRig nbCameras
          cam g g₁ hc]

/-- When no frame can satisfy the unknown-sensor push condition, one
group leaves the unknown-sensor report list unchanged. -/
theorem processGroup_unknown (user : UserParams)
    (database : List Datasheet)
    (hp : ∀ img, unknownSensorPush user database img = false)
    (groupId : Nat) (group : List (List ImageFile)) (g g' : GlobalState)
    (h : processGroup user database groupId group g = .ok g') :
    g'.unknownSensorImages = g.unknownSensorImages := by
  unfold processGroup at h
  simp only at h
  cases hc : processCameras user database groupId
      (decide (group.length > 1)) group.length group 0 g with
  | error e => rw [hc] at h; exact absurd h (by simp)
  | ok g₁ =>
    rw [hc] at h
    simp only at h
    have h₁ := processCameras_unknown user database hp groupId _
      group.length group 0 g g₁ hc
    by_cases hr : group.length > 1
    · rw [if_pos hr] at h
      injection h with h₂
      subst h₂
      exact h₁
    · rw [if_neg hr] at h
      obtain rfl : g₁ = g' := by simpa using h
      exact h₁

/-- When no frame can satisfy the unknown-sensor push condition, the
group loop leaves the unknown-sensor report list unchanged. -/
theorem runGroups_unknown (user : UserParams) (database : List Datasheet)
    (hp : ∀ img, unknownSensorPush user database img = false) :
    ∀ (gs : List (List (List ImageFile))) (gid : Nat)
      (g g' : GlobalState),
    runGroups user database gs gid g = .ok g' →
    g'.unknownSensorImages = g.unknownSensorImages := by
  intro gs
  induction gs with
  | nil =>
    intro gid g g' h
    simp only [runGroups] at h
    obtain rfl : g = g' := by simpa using h
    rfl
  | cons gr rest ih =>
    intro gid g g' h
    simp only [runGroups] at h
    cases hc : processGroup user database gid gr g with
    | error e => rw [hc] at h; exact absurd h (by simp)
    | ok g₁ =>
      rw [hc] at h
      simp only at h
      rw [ih (gid + 1) g₁ g' h,
        processGroup_unknown user database hp gid gr g g₁ hc]

/-- A run whose loop state carries no unknown-sensor report never exits
with the unknown-sensor failure. -/
theorem postLoop_ne_unknown (user : UserParams)
    (merge : List (Nat × View) → List (Nat × View)) (saveOk : Bool)
    (st : GlobalState) (h : st.unknownSensorImages = []) :
    postLoop user merge saveOk st ≠ .unknownSensorFailure := by
  intro hc
  unfold postLoop at hc
  rw [h] at hc
  rw [if_neg (by simp [uniqueConsecutive])] at hc
  simp only at hc
  split at hc
  · exact RunResult.noConfusion hc
  · unfold finishViews at hc
    split at hc <;> exact RunResult.noConfusion hc

/-- When no frame can satisfy the unknown-sensor push condition under
the effective user parameters, the whole run never exits with the
unknown-sensor failure. -/
theorem mainRun_ne_unknown (user : UserParams)
    (database : List Datasheet)
    (merge : List (Nat × View) → List (Nat × View)) (saveOk : Bool)
    (groups : List (List (List ImageFile)))
    (hp : ∀ img, unknownSensorPush (userAfterKMatrix user) database img =
      false) :
    mainRun user database merge saveOk groups ≠ .unknownSensorFailure := by
  intro hc
  unfold mainRun at hc
  by_cases h1 : user.kMatrix.isSome ∧ user.focalLengthPixel ≠ -1
  · rw [if_pos h1] at hc
    exact RunResult.noConfusion hc
  · rw [if_neg h1] at hc
    simp only at hc
    by_cases h2 : groups.isEmpty = true
    · rw [if_pos h2] at hc
      exact RunResult.noConfusion hc
    · rw [if_neg h2] at hc
      by_cases h3 : (!rigCountCheck groups) = true
      · rw [if_pos h3] at hc
        exact RunResult.noConfusion hc
      · rw [if_neg h3] at hc
        cases hr : runGroups (userAfterKMatrix user) database groups 0
            GlobalState.init with
        | error e => rw [hr] at hc; exact RunResult.noConfusion hc
        | ok st =>
          rw [hr] at hc
          simp only at hc
          exact postLoop_ne_unknown (userAfterKMatrix user) merge saveOk st
            (runGroups_unknown (userAfterKMatrix user) database hp groups 0
              GlobalState.init st hr) hc

/-- An explicit user sensor width disables the unknown-sensor push. -/
theorem unknownSensorPush_of_sensorWidth (user : UserParams)
    (database : List Datasheet) (img : ImageFile)
    (h : user.sensorWidth ≠ -1) :
    unknownSensorPush user database img = false := by
  unfold unknownSensorPush sensorWidthStep
  rw [if_pos h]

/-- The user override block fixes the pixel focal length to the explicit
user focal length when one is given. -/
theorem metadataAfterOverrides_px (user : UserParams) (img : ImageFile)
    (h : user.focalLengthPixel ≠ -1) :
    (metadataAfterOverrides user img).pxFocalLength =
      user.focalLengthPixel := by
  unfold metadataAfterOverrides applyUserOverrides
  rw [if_pos h]
  rfl

/-- A pixel focal length other than the -1 sentinel after the user
overrides disables the unknown-sensor push. -/
theorem unknownSensorPush_of_px (user : UserParams)
    (database : List Datasheet) (img : ImageFile)
    (h : (metadataAfterOverrides user img).pxFocalLength ≠ -1) :
    unknownSensorPush user database img = false := by
  unfold unknownSensorPush sensorWidthStep
  by_cases hs : user.sensorWidth ≠ -1
  · rw [if_pos hs]
  · rw [if_neg hs]
    unfold ImageMetadata.computeSensorWidth
    cases hg : getInfo database (metadataAfterOverrides user img).cameraBrand
        (metadataAfterOverrides user img).cameraModel with
    | none => simp [hg, h]
    | some s => simp [hg]

/-- Invalid EXIF metadata after the user overrides disables the
unknown-sensor push. -/
theorem unknownSensorPush_of_invalid (user : UserParams)
    (database : List Datasheet) (img : ImageFile)
    (h : (metadataAfterOverrides user img).haveValidMetadata = false) :
    unknownSensorPush user database img = false := by
  unfold unknownSensorPush sensorWidthStep
  by_cases hs : user.sensorWidth ≠ -1
  · rw [if_pos hs]
  · rw [if_neg hs]
    unfold ImageMetadata.computeSensorWidth
    cases hg : getInfo database (metadataAfterOverrides user img).cameraBrand
        (metadataAfterOverrides user img).cameraModel with
    | none => simp [hg, h]
    | some s => simp [hg]

/-- The user override block never changes the metadata validity flag
computed by the constructor. -/
theorem metadataAfterOverrides_valid (user : UserParams)
    (img : ImageFile) :
    (metadataAfterOverrides user img).haveValidMetadata =
      (img.exif.hasExifInfo && !img.exif.brand.isEmpty &&
        !img.exif.model.isEmpty) := by
  unfold metadataAfterOverrides applyUserOverrides
  cases user.cameraModel <;> cases user.kMatrix <;>
    by_cases hf : user.focalLengthPixel ≠ -1 <;>
    simp only [if_pos hf, if_neg hf] <;>
    rfl

/-- The unknown-sensor push happens only when all its conditions hold:
no explicit user sensor width, a database miss for the metadata's
(brand, model), valid EXIF metadata, and a pixel focal length still at
the -1 sentinel after the user overrides. -/
theorem unknownSensorPush_spec (user : UserParams)
    (database : List Datasheet) (img : ImageFile)
    (h : unknownSensorPush user database img = true) :
    user.sensorWidth = -1 ∧
    getInfo database (metadataAfterOverrides user img).cameraBrand
      (metadataAfterOverrides user img).cameraModel = none ∧
    (metadataAfterOverrides user img).haveValidMetadata = true ∧
    (metadataAfterOverrides user img).pxFocalLength = -1 := by
  unfold unknownSensorPush sensorWidthStep at h
  by_cases hs : user.sensorWidth ≠ -1
  · rw [if_pos hs] at h
    exact absurd h (by simp)
  · rw [if_neg hs] at h
    unfold ImageMetadata.computeSensorWidth at h
    cases hg : getInfo database
        (metadataAfterOverrides user img).cameraBrand
        (metadataAfterOverrides user img).cameraModel with
    | some s => rw [hg] at h; exact absurd h (by simp)
    | none =>
      rw [hg] at h
      simp only at h
      rw [Bool.and_eq_true] at h
      exact ⟨not_not.mp hs, rfl, h.1, of_decide_eq_true h.2⟩

/-- Claim C2 counterexample: a rig whose second frame of camera 0
differs from the camera's first frame in width only (200 x 100 vs
100 x 100) runs to success — the program's dimension check (line 968)
uses a conjunction, so a mismatch in a single dimension is not fatal,
refuting the claim that a mismatch in either dimension aborts the run. -/
theorem claim_C2_counterexample :
    imgB.width ≠ imgA.width ∧ imgB.height = imgA.height ∧
    rigC2 = [[imgA, imgB], [imgC, imgD]] ∧
    mainRun userDefault [] (fun vs => vs) true [rigC2] = .success := by
  exact ⟨by decide, by decide, rfl, by decide⟩

/-- Claim C2 (amended): for a camera's successfully-read frame beyond
its first, the run aborts if and only if both the decoded width and the
decoded height differ from the camera's first frame's dimensions; when
at least one dimension matches, the frame passes the dimension check.
A rig frame differing in both dimensions does abort the whole run. -/
theorem claim_C2_amended_thm :
    (∀ (P : CamParams) (k : Nat) (cv : CamVars) (g : GlobalState)
      (img : ImageFile),
      cv.isCameraFirstImage = false → img.formatKnown = true →
      img.headerReadable = true → 0 < img.width → 0 < img.height →
      (processFrame P k cv g img = .error () ↔
        (img.width ≠ cv.cameraWidth ∧ img.height ≠ cv.cameraHeight))) ∧
    mainRun userDefault [] (fun vs => vs) true
      [[[imgA, imgBoth], [imgC, imgD]]] = .rigDimensionMismatch := by
  constructor
  · intro P k cv g img h1 h2 h3 h4 h5
    unfold processFrame
    rw [if_neg (by simp [h2]), if_neg (by simp [h3]),
      if_neg (by omega : ¬(img.width ≤ 0 ∨ img.height ≤ 0)),
      if_neg (by simp [h1])]
    by_cases hd : img.width ≠ cv.cameraWidth ∧ img.height ≠ cv.cameraHeight
    · rw [if_pos hd]
      simp [hd]
    · rw [if_neg hd]
      simp [hd]
  · decide

/-- Claim C2 witness: the amended statement at a frame differing in both
dimensions and at a frame differing in width only. -/
theorem claim_C2_witness :
    (processFrame pC2 1 cvC2 GlobalState.init imgBoth = .error () ↔
      (imgBoth.width ≠ cvC2.cameraWidth ∧
        imgBoth.height ≠ cvC2.cameraHeight)) ∧
    (processFrame pC2 1 cvC2 GlobalState.init imgB = .error () ↔
      (imgB.width ≠ cvC2.cameraWidth ∧
        imgB.height ≠ cvC2.cameraHeight)) :=
  ⟨claim_C2_amended_thm.1 pC2 1 cvC2 GlobalState.init imgBoth (by decide)
     (by decide) (by decide) (by decide) (by decide),
   claim_C2_amended_thm.1 pC2 1 cvC2 GlobalState.init imgB (by decide)
     (by decide) (by decide) (by decide) (by decide)⟩

/-- Claim C5 (confirmed): for a rig group (more than one camera) whose
cameras each contribute F frames, processing the group advances the
shared pose counter by F exactly once, after all cameras; every view the
group adds stems from a camera index c and a frame index f < F and gets
pose id = entry counter + f — a function of f alone, so views of
distinct cameras at the same frame index share one pose id and views at
distinct frame indices never collide — together with the rig binding
(rig id, c); and every view added by any later group carries a pose id
strictly greater than every pose id used by this rig. -/
theorem claim_C5 (user : UserParams) (database : List Datasheet)
    (groupId : Nat) (group : List (List ImageFile)) (g st' : GlobalState)
    (F : Nat) (hrig : 1 < group.length)
    (hF : ∀ cam ∈ group, cam.length = F)
    (h : processGroup user database groupId group g = .ok st') :
    st'.poseId = g.poseId + F ∧
    st'.rigId = g.rigId + 1 ∧
    (∃ tail, st'.views = g.views ++ tail ∧
      ∀ kv ∈ tail, ∃ c, ∃ hc : c < group.length, ∃ f, f < F ∧
        ∃ hf : f < (group.get ⟨c, hc⟩).length,
        kv.1 = ((group.get ⟨c, hc⟩).get ⟨f, hf⟩).uid ∧
        kv.2.poseId = g.poseId + f ∧
        kv.2.rigAndSubPoseId = some (g.rigId, c)) ∧
    (∀ rest gid₂ st₂, runGroups user database rest gid₂ st' = .ok st₂ →
      ∀ kv ∈ st₂.views, kv ∈ st'.views ∨
        ∀ f, f < F → g.poseId + f < kv.2.poseId) := by
  obtain ⟨hrid, hpose, tail, hviews, htail, hnodup⟩ :=
    processGroup_spec_rig user database groupId group g st' hrig h
  have hhead : (group.headD []).length = F := by
    cases group with
    | nil => exact absurd hrig (by simp)
    | cons c rest => exact hF c (List.mem_cons_self c rest)
  refine ⟨by rw [hpose, hhead], hrid, ⟨tail, hviews, ?_⟩, ?_⟩
  · intro kv hkv
    obtain ⟨c, hc, f, hf, hu, hp, hsub⟩ := htail kv hkv
    have hflt : f < F := by
      rw [← hF (group.get ⟨c, hc⟩) (group.get_mem c hc)]
      exact hf
    exact ⟨c, hc, f, hflt, hf, hu, hp, hsub⟩
  · intro rest gid₂ st₂ h₂ kv hkv
    obtain ⟨hle, tail₂, hviews₂, htail₂, _⟩ :=
      runGroups_mono user database rest gid₂ st' st₂ h₂
    rw [hviews₂] at hkv
    rcases List.mem_append.mp hkv with hkv₁ | hkv₂
    · exact Or.inl hkv₁
    · right
      intro f hfF
      have h1 := htail₂ kv hkv₂
      rw [hpose, hhead] at h1
      omega

/-- Claim C5 witness: the statement applied to the concrete two-camera
one-frame rig group rigC5 from the initial state. -/
theorem claim_C5_witness :
    stC5.poseId = GlobalState.init.poseId + 1 ∧
    stC5.rigId = GlobalState.init.rigId + 1 :=
  ⟨(claim_C5 userDefault [] 0 rigC5 GlobalState.init stC5 1 (by decide)
      (by decide) (by with_unfolding_all rfl)).1,
   (claim_C5 userDefault [] 0 rigC5 GlobalState.init stC5 1 (by decide)
      (by decide) (by with_unfolding_all rfl)).2.1⟩

/-- Claim C6 (confirmed): a frame whose stable view id is already
registered is skipped without failing — the frame yields a successful
step that leaves the view registry unchanged (provided the frame does
not independently trip the rig dimension check) — and across any whole
run the view registry only grows and keeps its keys distinct, so the
final registry holds exactly one view per stable identifier. -/
theorem claim_C6 :
    (∀ (P : CamParams) (k : Nat) (cv : CamVars) (g : GlobalState)
      (img : ImageFile),
      hasKey g.views img.uid = true →
      (cv.isCameraFirstImage = true ∨ img.width = cv.cameraWidth ∨
        img.height = cv.cameraHeight) →
      ∃ r, processFrame P k cv g img = .ok r ∧ r.2.views = g.views) ∧
    (∀ (user : UserParams) (database : List Datasheet)
      (gs : List (List (List ImageFile))) (gid : Nat)
      (g st' : GlobalState),
      runGroups user database gs gid g = .ok st' →
      ((g.views.map Prod.fst).Nodup → (st'.views.map Prod.fst).Nodup) ∧
      ∃ tail, st'.views = g.views ++ tail) := by
  constructor
  · intro P k cv g img hk hnd
    unfold processFrame
    by_cases h1 : (!img.formatKnown) = true
    · rw [if_pos h1]; exact ⟨(cv, g), rfl, rfl⟩
    · rw [if_neg h1]
      by_cases h2 : (!img.headerReadable) = true
      · rw [if_pos h2]; exact ⟨(cv, g), rfl, rfl⟩
      · rw [if_neg h2]
        by_cases h3 : img.width ≤ 0 ∨ img.height ≤ 0
        · rw [if_pos h3]; exact ⟨(cv, g), rfl, rfl⟩
        · rw [if_neg h3]
          by_cases h4 : cv.isCameraFirstImage = true
          · rw [if_pos h4]
            refine ⟨_, rfl, ?_⟩
            obtain ⟨_, _, hfv, _⟩ := firstImageProcess_spec P img g
            unfold addViewStep
            rw [if_pos (by rw [hfv]; exact hk)]
            exact hfv
          · rw [if_neg h4]
            have hd : ¬(img.width ≠ cv.cameraWidth ∧
                img.height ≠ cv.cameraHeight) := by
              rcases hnd with hc | hc | hc
              · exact absurd hc h4
              · intro h5; exact h5.1 hc
              · intro h5; exact h5.2 hc
            rw [if_neg hd]
            refine ⟨_, rfl, ?_⟩
            unfold addViewStep
            rw [if_pos hk]
  · intro user database gs gid g st' h
    obtain ⟨_, tail, hviews, _, hnodup⟩ :=
      runGroups_mono user database gs gid g st' h
    exact ⟨hnodup, tail, hviews⟩

/-- Claim C6 witness: a duplicate frame (uid 11 already registered) is
skipped without failure and without changing the registry, and the
concrete rig run keeps registry keys distinct while only extending it. -/
theorem claim_C6_witness :
    (∃ r, processFrame pC2 0 ⟨true, 0, 0, ExifData.empty⟩ gWithView imgA =
      .ok r ∧ r.2.views = gWithView.views) ∧
    ((GlobalState.init.views.map Prod.fst).Nodup →
      (stC5.views.map Prod.fst).Nodup) ∧
    ∃ tail, stC5.views = GlobalState.init.views ++ tail :=
  ⟨claim_C6.1 pC2 0 ⟨true, 0, 0, ExifData.empty⟩ gWithView imgA (by decide)
     (Or.inl rfl),
   (claim_C6.2 userDefault [] [rigC5] 0 GlobalState.init stC5
      (by with_unfolding_all rfl)).1,
   (claim_C6.2 userDefault [] [rigC5] 0 GlobalState.init stC5
      (by with_unfolding_all rfl)).2⟩

/-- Claim C10 counterexample: a run with a user-supplied (valid) K
matrix whose focal entry is the -1 sentinel still exits with the fatal
unknown-sensor failure, refuting the claim that runs with a
user-supplied K matrix can never trigger it. -/
theorem claim_C10_counterexample :
    userC10.kMatrix = some (-1, 500, 375) ∧
    mainRun userC10 [] (fun vs => vs) true [[[imgC10]]] =
      .unknownSensorFailure := by
  exact ⟨rfl, by decide⟩

/-- Claim C10 (amended): an image is recorded in the fatal
unknown-sensor list only when all conditions hold: no explicit user
sensor width, a sensor-database miss for the metadata's (brand, model),
valid EXIF metadata (presence flag, brand and model all present), and a
pixel focal length still at the -1 sentinel after user overrides.
Consequently images lacking EXIF brand/model never contribute, and runs
with an explicit sensor width, an explicit pixel focal length, or a K
matrix whose focal entry differs from -1 never exit with the
unknown-sensor failure (a K matrix with focal entry -1 can, as the
counterexample shows). -/
theorem claim_C10_amended_thm :
    (∀ (user : UserParams) (database : List Datasheet) (img : ImageFile),
      unknownSensorPush user database img = true →
      user.sensorWidth = -1 ∧
      getInfo database (metadataAfterOverrides user img).cameraBrand
        (metadataAfterOverrides user img).cameraModel = none ∧
      (metadataAfterOverrides user img).haveValidMetadata = true ∧
      (metadataAfterOverrides user img).pxFocalLength = -1) ∧
    (∀ (user : UserParams) (database : List Datasheet) (img : ImageFile),
      (img.exif.brand = "" ∨ img.exif.model = "" ∨
        img.exif.hasExifInfo = false) →
      unknownSensorPush user database img = false) ∧
    (∀ (user : UserParams) (database : List Datasheet)
      (merge : List (Nat × View) → List (Nat × View)) (saveOk : Bool)
      (groups : List (List (List ImageFile))),
      user.sensorWidth ≠ -1 →
      mainRun user database merge saveOk groups ≠
        .unknownSensorFailure) ∧
    (∀ (user : UserParams) (database : List Datasheet)
      (merge : List (Nat × View) → List (Nat × View)) (saveOk : Bool)
      (groups : List (List (List ImageFile))),
      user.focalLengthPixel ≠ -1 →
      mainRun user database merge saveOk groups ≠
        .unknownSensorFailure) ∧
    (∀ (user : UserParams) (database : List Datasheet)
      (merge : List (Nat × View) → List (Nat × View)) (saveOk : Bool)
      (groups : List (List (List ImageFile))) (k : ℚ × ℚ × ℚ),
      user.kMatrix = some k → k.1 ≠ -1 →
      mainRun user database merge saveOk groups ≠
        .unknownSensorFailure) := by
  have huser : ∀ user : UserParams,
      (userAfterKMatrix user).sensorWidth = user.sensorWidth := by
    intro user
    unfold userAfterKMatrix
    cases user.kMatrix <;> rfl
  refine ⟨fun user db img h => unknownSensorPush_spec user db img h,
    ?_, ?_, ?_, ?_⟩
  · intro user db img h
    apply unknownSensorPush_of_invalid
    rw [metadataAfterOverrides_valid]
    have hh : ("" : String).isEmpty = true := rfl
    rcases h with h | h | h <;> rw [h] <;> simp [hh]
  · intro user db merge saveOk groups h
    apply mainRun_ne_unknown
    intro img
    apply unknownSensorPush_of_sensorWidth
    rw [huser user]
    exact h
  · intro user db merge saveOk groups h
    by_cases hk : user.kMatrix.isSome
    · unfold mainRun
      rw [if_pos ⟨hk, h⟩]
      decide
    · have he : userAfterKMatrix user = user := by
        unfold userAfterKMatrix
        cases hkm : user.kMatrix with
        | none => rfl
        | some k => exact absurd (by simp [hkm]) hk
      apply mainRun_ne_unknown
      intro img
      rw [he]
      apply unknownSensorPush_of_px
      rw [metadataAfterOverrides_px user img h]
      exact h
  · intro user db merge saveOk groups k hkm hf
    by_cases hfp : user.focalLengthPixel ≠ -1
    · unfold mainRun
      rw [if_pos ⟨by simp [hkm], hfp⟩]
      decide
    · apply mainRun_ne_unknown
      intro img
      have he : (userAfterKMatrix user).focalLengthPixel = k.1 := by
        unfold userAfterKMatrix
        rw [hkm]
      apply unknownSensorPush_of_px
      rw [metadataAfterOverrides_px _ img (by rw [he]; exact hf)]
      rw [he]
      exact hf

/-- Claim C10 witness: an image without EXIF brand never contributes to
the unknown-sensor list, and a run with an explicit sensor width never
exits with the unknown-sensor failure. -/
theorem claim_C10_witness :
    unknownSensorPush userDefault [] imgA = false ∧
    mainRun userSW [] (fun v => v) true [[[imgC10]]] ≠
      .unknownSensorFailure :=
  ⟨claim_C10_amended_thm.2.1 userDefault [] imgA (Or.inl rfl),
   claim_C10_amended_thm.2.2.1 userSW [] (fun v => v) true [[[imgC10]]]
     (by decide)⟩
